import Mathlib

set_option maxRecDepth 100000

/-!
Verification of the transaction ingestion, reconciliation and categorization
pipeline of the `mymoney2` repository, as a shallow embedding in Lean.

JavaScript numbers that carry money amounts are modelled as exact rationals
(`ℚ`); machine/SQL integers as `Nat`/`Int`; nullable columns and possibly
`undefined` JavaScript values as `Option`; the SQLite `transactions` table as a
list of rows.  Sorting steps (`Array.prototype.sort`, which is stable, and SQL
`ORDER BY`, which the code always uses with an injective key) are modelled by
the stable `List.insertionSort`.
-/

/-- JavaScript `x || null` on a nullable string: `null`, `undefined` and the
empty string all collapse to `null`. -/
def jsOrNullStr : Option String → Option String
  | none => none
  | some s => if s = "" then none else some s

/-- JavaScript `x || null` on a nullable number: `null`, `undefined` and `0`
collapse to `null`. -/
def jsOrNullQ : Option ℚ → Option ℚ
  | none => none
  | some q => if q = 0 then none else some q

/-- JavaScript truthiness of a nullable integer id (`null`, `undefined` and
`0` are falsy). -/
def jsTruthyNat : Option Nat → Bool
  | none => false
  | some n => n ≠ 0

/-- JavaScript `String.prototype.includes` (for a non-empty needle):
substring containment. -/
def strIncludes (s pat : String) : Bool := decide (pat.data <:+: s.data)

/-- JavaScript `String.prototype.toUpperCase`, character by character (the
source only relies on ASCII case mapping). -/
def jsToUpper (s : String) : String := String.mk (s.data.map Char.toUpper)

/-- JavaScript `String.prototype.toLowerCase`, character by character. -/
def jsToLower (s : String) : String := String.mk (s.data.map Char.toLower)

/-- JavaScript `String.prototype.trim`. -/
def jsTrim (s : String) : String :=
  String.mk (((s.data.dropWhile Char.isWhitespace).reverse.dropWhile Char.isWhitespace).reverse)

/-- JavaScript `String.prototype.startsWith`. -/
def jsStartsWith (s pre : String) : Bool := pre.data.isPrefixOf s.data

/-- Character-level splitting on a one-character separator (the source only
ever splits on `'|'`, `'.'` and `' '`). -/
def splitCharList (sep : Char) : List Char → List (List Char)
  | [] => [[]]
  | c :: rest =>
    let r := splitCharList sep rest
    if c = sep then [] :: r
    else
      match r with
      | [] => [[c]]
      | h :: t => (c :: h) :: t

/-- JavaScript `String.prototype.split` with a one-character separator. -/
def jsSplitChar (sep : Char) (s : String) : List String :=
  (splitCharList sep s.data).map String.mk

/-- Two-digit decimal rendering used by `toFixed(2)` for the fractional part. -/
def pad2 (n : Nat) : String := if n < 10 then "0" ++ toString n else toString n

/-- JavaScript `Number.prototype.toFixed(2)`: the sign is split off first and
the magnitude is rounded to the nearest multiple of 1/100, ties away from
zero (`round` is round-half-up, applied to the absolute value). -/
def toFixed2 (q : ℚ) : String :=
  let m : Nat := (round (|q| * 100) : ℤ).toNat
  (if q < 0 then "-" else "") ++ toString (m / 100) ++ "." ++ pad2 (m % 100)

/-- `parseFloat(x.toFixed(2))`: the numeric value of `toFixed2` (note that
`-0.00` reads back as `0`). -/
def jsRound2 (q : ℚ) : ℚ :=
  (if q < 0 then -1 else 1) * ((round (|q| * 100) : ℤ) : ℚ) / 100

/-- UTF-8 encoding of one character (what `crypto.update` applies to a
JavaScript string before hashing). -/
def utf8Bytes (c : Char) : List Nat :=
  let n := c.toNat
  if n < 128 then [n]
  else if n < 2048 then [192 + n / 64, 128 + n % 64]
  else if n < 65536 then [224 + n / 4096, 128 + n / 64 % 64, 128 + n % 64]
  else [240 + n / 262144, 128 + n / 4096 % 64, 128 + n / 64 % 64, 128 + n % 64]

/-- UTF-8 byte sequence of a string. -/
def strBytes (s : String) : List Nat := s.data.flatMap utf8Bytes

namespace MD5

/-- Truncation to a 32-bit word. -/
def w32 (n : Nat) : Nat := n % 4294967296

/-- 32-bit left rotation (input assumed `< 2^32`). -/
def rotl (x s : Nat) : Nat := (x * 2 ^ s + x / 2 ^ (32 - s)) % 4294967296

/-- 32-bit bitwise complement (input assumed `< 2^32`). -/
def notb (x : Nat) : Nat := 4294967295 - x

/-- MD5 round function F. -/
def fF (b c d : Nat) : Nat := (b &&& c) ||| (notb b &&& d)

/-- MD5 round function G. -/
def fG (b c d : Nat) : Nat := (d &&& b) ||| (notb d &&& c)

/-- MD5 round function H. -/
def fH (b c d : Nat) : Nat := b ^^^ c ^^^ d

/-- MD5 round function I. -/
def fI (b c d : Nat) : Nat := c ^^^ (b ||| notb d)

/-- The 64 MD5 sine-derived constants (RFC 1321). -/
def kTable : List Nat :=
  [0xd76aa478, 0xe8c7b756, 0x242070db, 0xc1bdceee,
   0xf57c0faf, 0x4787c62a, 0xa8304613, 0xfd469501,
   0x698098d8, 0x8b44f7af, 0xffff5bb1, 0x895cd7be,
   0x6b901122, 0xfd987193, 0xa679438e, 0x49b40821,
   0xf61e2562, 0xc040b340, 0x265e5a51, 0xe9b6c7aa,
   0xd62f105d, 0x02441453, 0xd8a1e681, 0xe7d3fbc8,
   0x21e1cde6, 0xc33707d6, 0xf4d50d87, 0x455a14ed,
   0xa9e3e905, 0xfcefa3f8, 0x676f02d9, 0x8d2a4c8a,
   0xfffa3942, 0x8771f681, 0x6d9d6122, 0xfde5380c,
   0xa4beea44, 0x4bdecfa9, 0xf6bb4b60, 0xbebfbc70,
   0x289b7ec6, 0xeaa127fa, 0xd4ef3085, 0x04881d05,
   0xd9d4d039, 0xe6db99e5, 0x1fa27cf8, 0xc4ac5665,
   0xf4292244, 0x432aff97, 0xab9423a7, 0xfc93a039,
   0x655b59c3, 0x8f0ccc92, 0xffeff47d, 0x85845dd1,
   0x6fa87e4f, 0xfe2ce6e0, 0xa3014314, 0x4e0811a1,
   0xf7537e82, 0xbd3af235, 0x2ad7d2bb, 0xeb86d391]

/-- The 64 per-round left-rotation amounts. -/
def sTable : List Nat :=
  [7, 12, 17, 22, 7, 12, 17, 22, 7, 12, 17, 22, 7, 12, 17, 22,
   5, 9, 14, 20, 5, 9, 14, 20, 5, 9, 14, 20, 5, 9, 14, 20,
   4, 11, 16, 23, 4, 11, 16, 23, 4, 11, 16, 23, 4, 11, 16, 23,
   6, 10, 15, 21, 6, 10, 15, 21, 6, 10, 15, 21, 6, 10, 15, 21]

/-- One MD5 round step on the state `(a, b, c, d)`. -/
def stepFn (m : List Nat) (st : Nat × Nat × Nat × Nat) (i : Nat) : Nat × Nat × Nat × Nat :=
  let a := st.1
  let b := st.2.1
  let c := st.2.2.1
  let d := st.2.2.2
  let fg : Nat × Nat :=
    if i < 16 then (fF b c d, i)
    else if i < 32 then (fG b c d, (5 * i + 1) % 16)
    else if i < 48 then (fH b c d, (3 * i + 5) % 16)
    else (fI b c d, (7 * i) % 16)
  let tmp := w32 (a + fg.1 + kTable.getD i 0 + m.getD fg.2 0)
  (d, w32 (b + rotl tmp (sTable.getD i 0)), b, c)

/-- MD5 padding: append `0x80`, zero-fill to 56 mod 64, then the original
length in bits as a 64-bit little-endian quantity. -/
def padMsg (msg : List Nat) : List Nat :=
  let len := msg.length
  let bitLen := (8 * len) % 18446744073709551616
  msg ++ [128] ++ List.replicate ((119 - len % 64) % 64) 0
      ++ (List.range 8).map (fun i => bitLen / 2 ^ (8 * i) % 256)

/-- Split a byte list into 64-byte chunks (structural recursion on a fuel
bound so the kernel can evaluate it; the input length bounds the number of
chunks). -/
def chunksAux : Nat → List Nat → List (List Nat)
  | 0, _ => []
  | _, [] => []
  | fuel + 1, l => l.take 64 :: chunksAux fuel (l.drop 64)

/-- Split a byte list into 64-byte chunks. -/
def chunks64 (l : List Nat) : List (List Nat) := chunksAux l.length l

/-- The 16 little-endian 32-bit words of one 64-byte block. -/
def wordsOfBlock (b : List Nat) : List Nat :=
  (List.range 16).map fun j =>
    b.getD (4 * j) 0 + 256 * b.getD (4 * j + 1) 0 +
      65536 * b.getD (4 * j + 2) 0 + 16777216 * b.getD (4 * j + 3) 0

/-- Process one 64-byte block. -/
def processBlock (st : Nat × Nat × Nat × Nat) (b : List Nat) : Nat × Nat × Nat × Nat :=
  let m := wordsOfBlock b
  let e := (List.range 64).foldl (stepFn m) st
  (w32 (st.1 + e.1), w32 (st.2.1 + e.2.1), w32 (st.2.2.1 + e.2.2.1), w32 (st.2.2.2 + e.2.2.2))

/-- Little-endian byte rendering of a 32-bit word. -/
def wordBytes (w : Nat) : List Nat := [w % 256, w / 256 % 256, w / 65536 % 256, w / 16777216 % 256]

/-- MD5 digest of a byte list, as the 16 digest bytes. -/
def digest (msg : List Nat) : List Nat :=
  let st := (chunks64 (padMsg msg)).foldl processBlock
    (0x67452301, 0xefcdab89, 0x98badcfe, 0x10325476)
  wordBytes st.1 ++ wordBytes st.2.1 ++ wordBytes st.2.2.1 ++ wordBytes st.2.2.2

/-- Lowercase hexadecimal alphabet. -/
def hexDigits : List Char := "0123456789abcdef".data

/-- Two lowercase hex characters of one byte. -/
def hexByte (b : Nat) : List Char := [hexDigits.getD (b / 16 % 16) '0', hexDigits.getD (b % 16) '0']

/-- `crypto.createHash('md5').update(s).digest('hex')` — the 32 lowercase hex
characters of the MD5 digest of the UTF-8 bytes of `s`. -/
def hexChars (s : String) : List Char := (digest (strBytes s)).flatMap hexByte

end MD5

namespace Dsk

/-- The fields of a parsed structured-markup (DSK XML) movement that feed the
identity generator (`generateTransactionId` in the XML import module).  The
transaction date is nullable because `convertDate` returns `null` for an
absent date, and `Array.prototype.join` renders `null` as the empty string. -/
structure IdFields where
  transactionDate : Option String
  description : String
  amount : ℚ
  counterpartyName : String
deriving DecidableEq, Repr

/-- The `join('|')` of date, description, `amount.toFixed(2)` and
counterparty that the XML import module hashes. -/
def hashInput (t : IdFields) : String :=
  t.transactionDate.getD "" ++ "|" ++ t.description ++ "|" ++ toFixed2 t.amount ++ "|"
    ++ t.counterpartyName

/-- `generateTransactionId` of the XML import module: `DSK_` followed by the
first 16 hex characters of the MD5 of the joined fields, uppercased. -/
def generateTransactionId (t : IdFields) : String :=
  "DSK_" ++ jsToUpper (String.mk ((MD5.hexChars (hashInput t)).take 16))

end Dsk

namespace Rev

/-- `generateTransactionId` of the delimited-text (Revolut CSV) import
module: the entire raw row is joined with `|` and hashed. -/
def generateTransactionId (row : List String) : String :=
  "REV_" ++ jsToUpper (String.mk ((MD5.hexChars (String.intercalate "|" row)).take 16))

end Rev

/-- A normalized transaction record as handed to `upsertTransaction`
(camel-case fields of the JavaScript object). -/
structure Tx where
  id : String
  accountId : String
  transactionDate : Option String
  bookingDate : Option String
  amount : ℚ
  currency : String
  description : String
  counterpartyName : String
  categoryId : Option Nat
  rawData : Option String
  originalAmount : Option ℚ
  originalCurrency : Option String
  country : Option String
deriving DecidableEq, Repr

/-- A row of the SQLite `transactions` table (snake-case columns; `notes` and
`category_id` are the locally-assigned columns). -/
structure StoredTx where
  id : String
  accountId : String
  transactionDate : Option String
  bookingDate : Option String
  amount : ℚ
  currency : String
  description : String
  counterpartyName : String
  categoryId : Option Nat
  rawData : Option String
  originalAmount : Option ℚ
  originalCurrency : Option String
  country : Option String
  notes : Option String
deriving DecidableEq, Repr

/-- The `transactions` table, as a list of rows with (by schema) unique ids. -/
abbrev Store := List StoredTx

/-- `SELECT * FROM transactions WHERE id = ?` (ids are the primary key, so
the first match is the row). -/
def findTx (s : Store) (id : String) : Option StoredTx := s.find? (fun r => r.id = id)

/-- The `UPDATE transactions SET ...` of `upsertTransaction`: overwrites the
ten GoCardless-origin columns from the incoming record (with the JavaScript
`|| null` coercions the call site applies) and touches nothing else. -/
def applyUpdate (tx : Tx) (r : StoredTx) : StoredTx :=
  { r with
    transactionDate := tx.transactionDate
    bookingDate := tx.bookingDate
    amount := tx.amount
    currency := tx.currency
    description := tx.description
    counterpartyName := tx.counterpartyName
    rawData := jsOrNullStr tx.rawData
    originalAmount := jsOrNullQ tx.originalAmount
    originalCurrency := jsOrNullStr tx.originalCurrency
    country := jsOrNullStr tx.country }

/-- The `INSERT INTO transactions ...` of `upsertTransaction`: all thirteen
columns from the incoming record, `notes` left at its NULL default. -/
def insertRow (tx : Tx) : StoredTx :=
  { id := tx.id
    accountId := tx.accountId
    transactionDate := tx.transactionDate
    bookingDate := tx.bookingDate
    amount := tx.amount
    currency := tx.currency
    description := tx.description
    counterpartyName := tx.counterpartyName
    categoryId := tx.categoryId
    rawData := jsOrNullStr tx.rawData
    originalAmount := jsOrNullQ tx.originalAmount
    originalCurrency := jsOrNullStr tx.originalCurrency
    country := jsOrNullStr tx.country
    notes := none }

/-- `upsertTransaction`: update the mutable columns if the id exists, insert
a fresh row otherwise; the boolean is the returned `isNew` flag. -/
def upsertTransaction (s : Store) (tx : Tx) : Store × Bool :=
  match findTx s tx.id with
  | some _ => (s.map fun r => if r.id = tx.id then applyUpdate tx r else r, false)
  | none => (insertRow tx :: s, true)

/-- The result object of `importTransactionsBatch`; `errors` keeps the ids of
the records whose upsert threw, in encounter order. -/
structure ImportResults where
  imported : Nat
  skipped : Nat
  errors : List String
deriving DecidableEq, Repr

/-- The per-record loop of `importTransactionsBatch`.  A throwing upsert is
modelled by the oracle `fails` (a record whose upsert throws leaves the store
untouched and lands in `errors`); a non-failing record is upserted and
counted as imported (insert branch) or skipped (update branch). -/
def importLoop (fails : Tx → Bool) : Store → List Tx → Store × ImportResults
  | s, [] => (s, ⟨0, 0, []⟩)
  | s, tx :: rest =>
    if fails tx then
      let p := importLoop fails s rest
      (p.1, { p.2 with errors := tx.id :: p.2.errors })
    else
      let u := upsertTransaction s tx
      let p := importLoop fails u.1 rest
      if u.2 then (p.1, { p.2 with imported := p.2.imported + 1 })
      else (p.1, { p.2 with skipped := p.2.skipped + 1 })

/-- The oracle for a run in which no per-record upsert throws. -/
def noFail : Tx → Bool := fun _ => false

/-- `importTransactionsBatch`: one storage transaction around the whole loop.
`commitOk` models whether the final `COMMIT` itself succeeds; per-record
errors never reach the catch-and-rollback branch, which fires only when the
commit fails, restoring the initial store. -/
def importTransactionsBatch (fails : Tx → Bool) (commitOk : Bool) (s : Store)
    (txs : List Tx) : Store × Except String ImportResults :=
  let p := importLoop fails s txs
  if commitOk then (p.1, Except.ok p.2) else (s, Except.error "commit failed")

/-- A row of the `categorization_rules` table; `createdAt` is the creation
timestamp (injective in any run, since it orders rule creation). -/
structure Rule where
  id : Nat
  pattern : String
  categoryId : Nat
  priority : Int
  active : Bool
  createdAt : Nat
deriving DecidableEq, Repr

/-- A row of the `categories` table (only the key matters here). -/
structure Category where
  id : Nat
  name : String
deriving DecidableEq, Repr

/-- The two tables read by the categorization engine. -/
structure RulesDb where
  rules : List Rule
  categories : List Category
deriving DecidableEq, Repr

/-- The `ORDER BY cr.priority DESC, cr.created_at ASC` key of
`getAllCategorizationRules`. -/
def ruleOrd (a b : Rule) : Prop :=
  b.priority < a.priority ∨ (b.priority = a.priority ∧ a.createdAt ≤ b.createdAt)

instance : DecidableRel ruleOrd := fun a b => by unfold ruleOrd; infer_instance

/-- The JavaScript comparator `(a, b) => b.priority - a.priority` (stable
sort, descending priority). -/
def prioOrd (a b : Rule) : Prop := b.priority ≤ a.priority

instance : DecidableRel prioOrd := fun a b => by unfold prioOrd; infer_instance

/-- `getAllCategorizationRules`: inner-joins rules with their categories
(dropping any rule whose category row is gone) and sorts by priority
descending, creation time ascending. -/
def getAllCategorizationRules (db : RulesDb) : List Rule :=
  (db.rules.filter fun r => db.categories.any fun c => c.id = r.categoryId).insertionSort ruleOrd

/-- The uppercase search text `description + " " + counterpartyName` built by
`categorizeTransaction` (absent fields read as `''`). -/
def searchTextOf (description counterpartyName : String) : String :=
  jsToUpper (description ++ " " ++ counterpartyName)

/-- One rule's match test: split the uppercased pattern on `|`, trim each
alternative, succeed on the first non-empty alternative contained in the
search text. -/
def ruleMatches (searchText : String) (r : Rule) : Bool :=
  (jsSplitChar '|' (jsToUpper r.pattern)).any fun p =>
    jsTrim p ≠ "" && strIncludes searchText (jsTrim p)

/-- `categorizeTransaction`: fetch the rules, keep the active ones, stable-sort
by priority descending, and return the category id of the first rule whose
pattern matches the search text (or `null`). -/
def categorizeTransaction (db : RulesDb) (description counterpartyName : String) : Option Nat :=
  let activeRules := ((getAllCategorizationRules db).filter fun r => r.active).insertionSort prioOrd
  let searchText := searchTextOf description counterpartyName
  activeRules.findSome? fun r => if ruleMatches searchText r then some r.categoryId else none

/-- The specification's statement of the categorization algorithm, written
from the spec's words for the refinement proof: keep only active rules, sort
by priority descending with ties broken by creation order earliest first,
and return the category of the first rule matching the uppercase search
string. -/
def specCategorize (rules : List Rule) (description counterpartyName : String) : Option Nat :=
  ((rules.filter fun r => r.active).insertionSort ruleOrd).findSome? fun r =>
    if ruleMatches (searchTextOf description counterpartyName) r then some r.categoryId else none

/-- The `ORDER BY transaction_date DESC` comparison as a boolean (SQLite
sorts NULLs first ascending, hence last descending). -/
def dateDescB (a b : StoredTx) : Bool :=
  match a.transactionDate, b.transactionDate with
  | some x, some y => decide (y ≤ x)
  | some _, none => true
  | none, some _ => false
  | none, none => true

/-- The `ORDER BY transaction_date DESC` key used when reading transactions. -/
def dateDesc (a b : StoredTx) : Prop := dateDescB a b = true

instance : DecidableRel dateDesc := fun _ _ => inferInstanceAs (Decidable (_ = true))

/-- `getCategoryByCounterparty`: the category of the most recent transaction
with the given counterparty and a non-NULL category (`null` for a falsy
counterparty name). -/
def getCategoryByCounterparty (s : Store) (cp : String) : Option Nat :=
  if cp = "" then none
  else
    (((s.filter fun r => r.counterpartyName = cp && r.categoryId ≠ none).insertionSort
        dateDesc).head?).bind fun r => r.categoryId

/-- `UPDATE transactions SET category_id = ? WHERE id = ?`. -/
def updateTransactionCategory (s : Store) (id : String) (c : Nat) : Store :=
  s.map fun r => if r.id = id then { r with categoryId := some c } else r

/-- `getTransactions({categoryId: 'uncategorized', limit})`: the NULL-category
rows, ordered by transaction date descending, truncated to the page limit. -/
def getTransactionsUncategorized (s : Store) (lim : Nat) : List StoredTx :=
  ((s.filter fun r => r.categoryId = none).insertionSort dateDesc).take lim

/-- The category resolution of one `applyRulesToUncategorized` iteration:
rule matching first, then — when the rules produced nothing truthy and the
row has a counterparty — the counterparty-history fallback.  The DB rows
have no camel-case `counterpartyName` property, so the rule engine's search
text uses only the description (`transaction.counterpartyName` is
`undefined`); the fallback correctly reads the snake-case
`counterparty_name`. -/
def resolveCategory (db : RulesDb) (s : Store) (row : StoredTx) : Option Nat :=
  let fromRules := categorizeTransaction db row.description ""
  if !jsTruthyNat fromRules && row.counterpartyName ≠ "" then
    getCategoryByCounterparty s row.counterpartyName
  else fromRules

/-- One iteration of the `applyRulesToUncategorized` loop: persist the
resolved category when truthy and count it. -/
def applyStep (db : RulesDb) (s : Store) (row : StoredTx) : Store × Nat :=
  if jsTruthyNat (resolveCategory db s row) then
    (updateTransactionCategory s row.id ((resolveCategory db s row).getD 0), 1)
  else (s, 0)

/-- The `for` loop of `applyRulesToUncategorized` over the fetched snapshot,
threading the live store and the categorized count. -/
def applyLoop (db : RulesDb) : Store → Nat → List StoredTx → Store × Nat
  | s, n, [] => (s, n)
  | s, n, row :: rest => applyLoop db (applyStep db s row).1 (n + (applyStep db s row).2) rest

/-- `applyRulesToUncategorized`: fetch up to 10000 uncategorized rows, try
rules then counterparty history on each, persist the resolutions, and return
`(store, totalUncategorized, categorizedCount)`. -/
def applyRulesToUncategorized (db : RulesDb) (s : Store) : Store × Nat × Nat :=
  let fetched := getTransactionsUncategorized s 10000
  let p := applyLoop db s 0 fetched
  (p.1, fetched.length, p.2)

/-- The number of uncategorized rows of the store. -/
def uncatCount (s : Store) : Nat := (s.filter fun r => r.categoryId = none).length

/-- The frame relation of the bulk-categorization run: a row keeps its id and
every column except possibly `category_id`, which is either unchanged or
newly assigned to a previously uncategorized row (never cleared, never
overwritten). -/
def frameR (r q : StoredTx) : Prop :=
  ({ q with categoryId := r.categoryId } = r) ∧
  (q.categoryId = r.categoryId ∨ (r.categoryId = none ∧ q.categoryId ≠ none))

/-- The singleton GoCardless token row (`access_token`, `refresh_token`,
`expires_at` in epoch milliseconds). -/
structure TokenData where
  accessToken : String
  refreshToken : Option String
  expiresAt : Int
deriving DecidableEq, Repr

/-- Outcome of `POST /api/v2/token/refresh/`: `none` models a thrown request
error, `some (access, expiresAt)` a 2xx response (with the expiry already
converted to epoch milliseconds). -/
abbrev RefreshOutcome := Option (String × Int)

/-- Outcome of `POST /api/v2/token/new/`: `none` models a thrown request
error, `some (access, refresh, expiresAt)` a 2xx response. -/
abbrev ExchangeOutcome := Option (String × String × Int)

/-- `refreshAccessToken`: on success stores the new access token with the
*same* refresh token and returns the access token; on failure rethrows. -/
def refreshAccessToken (rt : String) (outcome : RefreshOutcome) :
    Except String (String × Option TokenData) :=
  match outcome with
  | some (access, expiresAt) => .ok (access, some ⟨access, some rt, expiresAt⟩)
  | none => .error "refresh failed"

/-- `createNewToken`: on success stores access, refresh and expiry wholesale
and returns the access token; on failure throws. -/
def createNewToken (outcome : ExchangeOutcome) : Except String (String × Option TokenData) :=
  match outcome with
  | some (access, refresh, expiresAt) => .ok (access, some ⟨access, some refresh, expiresAt⟩)
  | none => .error "Failed to create GoCardless access token. Check your credentials."

/-- `getAccessToken` as a function of the stored token, the current time in
epoch milliseconds, and the outcomes of the two network calls.  Returns the
access token to use together with the token row as left in the database. -/
def getAccessToken (db : Option TokenData) (now : Int) (refresh : RefreshOutcome)
    (exchange : ExchangeOutcome) : Except String (String × Option TokenData) :=
  match db with
  | some td =>
    if td.accessToken ≠ "" then
      if td.expiresAt > now + 5 * 60 * 1000 then .ok (td.accessToken, db)
      else
        match td.refreshToken with
        | some rt =>
          match refreshAccessToken rt refresh with
          | .ok r => .ok r
          | .error _ => createNewToken exchange
        | none => createNewToken exchange
    else createNewToken exchange
  | none => createNewToken exchange

/-- A structured-markup (DSK XML) `AccountMovement` element as delivered by
the XML parser (all leaf fields are optional text). -/
structure Movement where
  valueDate : Option String
  reason : Option String
  amountText : Option String
  movementType : Option String
  oppositeSideName : Option String
deriving DecidableEq, Repr

namespace Xml

/-- `convertDate` of the XML import module: `DD.MM.YYYY` to `YYYY-MM-DD`;
an absent date gives `null`, and a string that does not split into three
dot-separated parts is returned *unchanged* (with only a logged warning). -/
def convertDate (dateStr : Option String) : Option String :=
  match dateStr with
  | none => none
  | some ds =>
    if ds = "" then none
    else
      let parts := jsSplitChar '.' ds
      if parts.length ≠ 3 then some ds
      else some ((parts.getD 2 "") ++ "-" ++ (padLeft (parts.getD 1 "")) ++ "-"
        ++ (padLeft (parts.getD 0 "")))
where
  /-- `String.prototype.padStart(2, '0')`. -/
  padLeft (s : String) : String := if s.length < 2 then "0" ++ s else s

/-- `parseAmount` of the XML import module: strip spaces, turn decimal commas
into dots, `parseFloat`, and fall back to `0` for anything unparseable.  The
numeric parse is the JavaScript `parseFloat`, supplied as an oracle `pf`
shared by all callers. -/
def parseAmount (pf : String → Option ℚ) (amountStr : Option String) : ℚ :=
  match amountStr with
  | none => 0
  | some s =>
    if s = "" then 0
    else
      let normalized := String.mk ((s.data.filter fun c => ¬c = ' ').map
        fun c => if c = ',' then '.' else c)
      (pf normalized).getD 0

/-- A canonical transaction produced by `parseMovement` (before currency
conversion and id assignment). -/
structure ParsedMovement where
  transactionDate : Option String
  bookingDate : Option String
  description : String
  amount : ℚ
  counterpartyName : String
deriving DecidableEq, Repr

/-- `parseMovement`: date conversion, description cleaning (modelled by the
oracle `clean`, the HTML-stripping routine), decimal-comma amount parsing and
debit/credit sign.  Every movement yields a record — nothing is dropped. -/
def parseMovement (pf : String → Option ℚ) (clean : Option String → String) (m : Movement) :
    ParsedMovement :=
  let transactionDate := convertDate m.valueDate
  let rawAmount := parseAmount pf m.amountText
  let isDebit := m.movementType = some "Debit"
  { transactionDate := transactionDate
    bookingDate := transactionDate
    description := clean m.reason
    amount := if isDebit then -|rawAmount| else |rawAmount|
    counterpartyName := jsTrim (m.oppositeSideName.getD "") }

/-- The movement-mapping core of `parseDskBankXml` (after the external XML
parser has produced the movement list): a plain `map` — no filtering, no
per-row error recovery. -/
def parseDskMovements (pf : String → Option ℚ) (clean : Option String → String)
    (movements : List Movement) : List ParsedMovement :=
  movements.map (parseMovement pf clean)

end Xml

namespace Rev

/-- The column-index map discovered from the delimited-text header row
(`-1` sentinels modelled as `none`). -/
structure ColumnMap where
  startDate : Option Nat
  completedDate : Option Nat
  description : Option Nat
  amount : Option Nat
  currency : Option Nat
  state : Option Nat
deriving DecidableEq, Repr

/-- `parseRevolutDate`: strip the time part; accept `YYYY-MM-DD` directly;
anything else goes through the JavaScript `Date` constructor, modelled by the
oracle `jsDate` (returning the ISO date or `null`). -/
def parseRevolutDate (jsDate : String → Option String) (dateStr : Option String) :
    Option String :=
  match dateStr with
  | none => none
  | some ds =>
    if ds = "" then none
    else
      let datePart := (jsSplitChar ' ' (jsTrim ds)).getD 0 ""
      if isIsoDate datePart then some datePart else jsDate ds
where
  /-- The regex `^\d{4}-\d{2}-\d{2}$`. -/
  isIsoDate (s : String) : Bool :=
    s.length = 10 && (s.data.enum.all fun p =>
      if p.1 = 4 ∨ p.1 = 7 then decide (p.2 = '-') else p.2.isDigit)

/-- `parseRevolutAmount`: strip spaces, commas to dots, collapse extra dots
as thousands separators, then `parseFloat` (oracle `pf`), defaulting to `0`. -/
def parseRevolutAmount (pf : String → Option ℚ) (amountStr : Option String) : ℚ :=
  match amountStr with
  | none => 0
  | some s =>
    if s = "" then 0
    else
      let normalized := String.mk ((s.data.filter fun c => ¬c = ' ').map
        fun c => if c = ',' then '.' else c)
      let parts := jsSplitChar '.' normalized
      let collapsed :=
        if parts.length > 2 then
          String.intercalate "" parts.dropLast ++ "." ++ parts.getLastD ""
        else normalized
      (pf collapsed).getD 0

/-- A transaction parsed from one delimited-text row. -/
structure RevTx where
  transactionDate : String
  bookingDate : String
  description : String
  amount : ℚ
  currency : String
  counterpartyName : String
  rawRow : List String
deriving DecidableEq, Repr

/-- `extractCounterpartyFromDescription`, modelled by an oracle (a fixed list
of leading phrases is stripped; the exact phrase set does not matter to any
claim). -/
def extractCounterparty (strip : String → String) (description : String) : String :=
  if description = "" then "" else strip description

/-- `parseRevolutRow`: resolve cells through the column map, parse dates and
amount; a row whose completed date is unparseable yields `null` (dropped with
a warning), as does a row whose amount parses to zero. -/
def parseRevolutRow (pf : String → Option ℚ) (jsDate : String → Option String)
    (strip : String → String) (cm : ColumnMap) (row : List String) : Option RevTx :=
  let completedDateStr := cm.completedDate.bind fun i => row.get? i
  let startDateStr := cm.startDate.bind fun i => row.get? i
  let description := (cm.description.bind fun i => row.get? i).getD ""
  let amountStr := (cm.amount.bind fun i => row.get? i).getD "0"
  let currency := (cm.currency.bind fun i => row.get? i).getD "EUR"
  match parseRevolutDate jsDate completedDateStr with
  | none => none
  | some transactionDate =>
    let amount := parseRevolutAmount pf (some amountStr)
    if amount = 0 then none
    else some
      { transactionDate := transactionDate
        bookingDate := (parseRevolutDate jsDate startDateStr).getD transactionDate
        description := jsTrim description
        amount := amount
        currency := jsToUpper currency
        counterpartyName := extractCounterparty strip description
        rawRow := row }

/-- The completed-state filter of the row loop: rows whose `State` cell is
present and not a completed variant are skipped. -/
def isCompletedState (cm : ColumnMap) (row : List String) : Bool :=
  match cm.state with
  | none => true
  | some i =>
    let state := jsTrim (jsToLower ((row.get? i).getD ""))
    state = "" || state = "completed" || jsStartsWith state "завършен"

/-- The data-row loop of `parseRevolutCsv`: empty rows, non-completed rows
and rows rejected by `parseRevolutRow` are skipped; nothing aborts the parse. -/
def parseRevolutRows (pf : String → Option ℚ) (jsDate : String → Option String)
    (strip : String → String) (cm : ColumnMap) (rows : List (List String)) : List RevTx :=
  rows.foldr (fun row acc =>
    if row.length < 3 || ((cm.amount.bind fun i => row.get? i).getD "") = "" then acc
    else if !isCompletedState cm row then acc
    else
      match parseRevolutRow pf jsDate strip cm row with
      | some tx => tx :: acc
      | none => acc) []

/-- The currency conversion table of the delimited-text import module
(accounting-currency units per foreign unit). -/
def currencyRates : List (String × ℚ) :=
  [("BGN", 19558 / 10000), ("EUR", 1), ("USD", 108 / 100), ("GBP", 85 / 100),
   ("RON", 497 / 100), ("PLN", 432 / 100), ("CHF", 94 / 100), ("CZK", 25),
   ("HUF", 395), ("TRY", 35)]

/-- The currency-normalization step of `processCsvForImport`: EUR passes
through untouched; a known non-EUR currency is divided by its table rate and
rounded to two decimals, keeping the original amount and currency; an unknown
currency is left unconverted (warning only). -/
def convertCsvAmount (amount : ℚ) (currency : String) : ℚ × Option ℚ × Option String :=
  if currency = "EUR" then (amount, none, none)
  else
    match currencyRates.lookup currency with
    | some rate =>
      if rate ≠ 0 then (jsRound2 (amount / rate), some amount, some currency)
      else (amount, none, none)
    | none => (amount, none, none)

end Rev

/-- The fixed BGN rate of the GoCardless module (1.95583, *not* the 1.9558 of
the file importers). -/
def bgnToEurRate : ℚ := 195583 / 100000

/-- `convertToEur` of the GoCardless module: EUR passes through, BGN is
divided by the fixed rate with *no* rounding, any other currency is returned
unchanged with a warning. -/
def convertToEur (amount : ℚ) (currency : String) : ℚ :=
  if currency = "EUR" then amount
  else if currency = "BGN" then amount / bgnToEurRate
  else amount

/-! Concrete fixtures used by witness and counterexample theorems. -/

/-- A normalized transaction fixture with a chosen id, description and
category. -/
def mkTx (id desc : String) (cat : Option Nat) : Tx :=
  { id := id, accountId := "ACC1", transactionDate := some "2024-03-15",
    bookingDate := some "2024-03-15", amount := -29, currency := "EUR",
    description := desc, counterpartyName := "SHOP LTD", categoryId := cat,
    rawData := some "raw", originalAmount := none, originalCurrency := none,
    country := none }

/-- A stored-row fixture with a chosen id, date, description, counterparty,
category and notes. -/
def mkStored (id : String) (date : Option String) (desc cp : String) (cat : Option Nat)
    (notes : Option String) : StoredTx :=
  { id := id, accountId := "ACC1", transactionDate := date, bookingDate := date,
    amount := -29, currency := "EUR", description := desc,
    counterpartyName := cp, categoryId := cat, rawData := some "raw",
    originalAmount := none, originalCurrency := none, country := none, notes := notes }

/-- Failure oracle for the five-record batch scenario: only record `B3`'s
upsert throws. -/
def failsB3 : Tx → Bool := fun t => t.id == "B3"

/-- A high-priority categorization rule (priority 10, category 42). -/
def ruleA : Rule :=
  { id := 1, pattern := "SHOP|MARKET", categoryId := 42, priority := 10,
    active := true, createdAt := 1 }

/-- A low-priority categorization rule matching the same text (priority 1,
category 7). -/
def ruleB : Rule :=
  { id := 2, pattern := "SHOP", categoryId := 7, priority := 1,
    active := true, createdAt := 2 }

/-- The categories referenced by the two rule fixtures. -/
def catsAB : List Category := [{ id := 42, name := "groceries" }, { id := 7, name := "coffee" }]

/-- The identity-generator fixture: a debit card purchase. -/
def idf0 : Dsk.IdFields :=
  { transactionDate := some "2024-03-15", description := "Card purchase SHOP",
    amount := -29, counterpartyName := "SHOP LTD" }

/-- A movement whose date does not parse and whose amount is zero. -/
def badMovement : Movement :=
  { valueDate := some "garbage", reason := some "desc", amountText := some "0",
    movementType := some "Debit", oppositeSideName := some "X" }

/-- A `parseFloat` oracle consistent with JavaScript on the strings the
fixtures exercise. -/
def pf0 : String → Option ℚ := fun s => if s = "0" then some 0 else none

/-- A `cleanDescription` oracle consistent with JavaScript on tag-free,
entity-free, single-spaced strings. -/
def clean0 : Option String → String := fun o => o.getD ""

/-- A JavaScript `Date`-constructor oracle that parses nothing (consistent
with JavaScript on garbage strings). -/
def jsDate0 : String → Option String := fun _ => none

/-- A counterparty-stripping oracle that strips nothing. -/
def strip0 : String → String := fun s => s

/-- A column map whose completed-date column points at cell 0 and amount at
cell 1. -/
def cm0 : Rev.ColumnMap :=
  { startDate := none, completedDate := some 0, description := none, amount := some 1,
    currency := none, state := none }

/-! ## Shared lemmas -/

/-- The update branch never changes the primary key. -/
theorem applyUpdate_id (tx : Tx) (r : StoredTx) : (applyUpdate tx r).id = r.id := rfl

/-- Looking an id up after mapping an id-preserving function over the table. -/
theorem findTx_map_id (s : Store) (id : String) (f : StoredTx → StoredTx)
    (hf : ∀ r, (f r).id = r.id) : findTx (s.map f) id = (findTx s id).map f := by
  unfold findTx
  rw [List.find?_map]
  congr 1
  congr 1
  funext r
  simp [Function.comp, hf]

/-- The update branch of `upsertTransaction`, resolved at the stored row. -/
theorem upsert_found (s : Store) (tx : Tx) (r : StoredTx) (h : findTx s tx.id = some r) :
    upsertTransaction s tx = (s.map fun q => if q.id = tx.id then applyUpdate tx q else q, false) ∧
    findTx (upsertTransaction s tx).1 tx.id = some (applyUpdate tx r) := by
  have hid : r.id = tx.id := by
    have hp := List.find?_some h
    simpa using hp
  have hbranch :
      upsertTransaction s tx =
        (s.map fun q => if q.id = tx.id then applyUpdate tx q else q, false) := by
    unfold upsertTransaction
    rw [h]
  refine ⟨hbranch, ?_⟩
  rw [hbranch]
  have hmap := findTx_map_id s tx.id (fun q => if q.id = tx.id then applyUpdate tx q else q)
    (fun q => by by_cases hq : q.id = tx.id <;> simp [hq, applyUpdate_id])
  rw [hmap, h]
  show some (if r.id = tx.id then applyUpdate tx r else r) = some (applyUpdate tx r)
  rw [if_pos hid]

/-- The insert branch of `upsertTransaction`. -/
theorem upsert_fresh (s : Store) (tx : Tx) (h : findTx s tx.id = none) :
    upsertTransaction s tx = (insertRow tx :: s, true) ∧
    findTx (upsertTransaction s tx).1 tx.id = some (insertRow tx) := by
  have hbranch : upsertTransaction s tx = (insertRow tx :: s, true) := by
    unfold upsertTransaction
    rw [h]
  refine ⟨hbranch, ?_⟩
  rw [hbranch]
  unfold findTx
  simp [insertRow, List.find?_cons]

/-- Upserting any record preserves the presence of every id. -/
theorem upsert_preserves_present (s : Store) (tx : Tx) (id : String)
    (h : (findTx s id).isSome) : (findTx (upsertTransaction s tx).1 id).isSome := by
  unfold upsertTransaction
  cases hf : findTx s tx.id with
  | some r =>
    simp only []
    rw [findTx_map_id s id _ (fun q => by by_cases hq : q.id = tx.id <;> simp [hq, applyUpdate_id])]
    simpa using h
  | none =>
    simp only [findTx, List.find?_cons]
    split
    · simp
    · exact h

/-! ## Claim 3 -/

/-- Claim C3: on the update path of `upsertTransaction` (id already stored),
the ten source-origin fields (dates, amount, currency, description,
counterparty, raw payload, original amount/currency, country) are overwritten
from the incoming record while the locally-assigned `categoryId` and `notes`
of the stored row are unchanged. -/
theorem claim3_upsert_merge (s : Store) (tx : Tx) (r : StoredTx)
    (h : findTx s tx.id = some r) :
    ∃ u, findTx (upsertTransaction s tx).1 tx.id = some u ∧
      u.transactionDate = tx.transactionDate ∧ u.bookingDate = tx.bookingDate ∧
      u.amount = tx.amount ∧ u.currency = tx.currency ∧ u.description = tx.description ∧
      u.counterpartyName = tx.counterpartyName ∧ u.rawData = jsOrNullStr tx.rawData ∧
      u.originalAmount = jsOrNullQ tx.originalAmount ∧
      u.originalCurrency = jsOrNullStr tx.originalCurrency ∧
      u.country = jsOrNullStr tx.country ∧
      u.categoryId = r.categoryId ∧ u.notes = r.notes := by
  refine ⟨applyUpdate tx r, (upsert_found s tx r h).2, ?_⟩
  simp [applyUpdate]

/-- Witness for C3: a stored row with category 5 and notes `x` re-upserted
with a different description keeps its category and notes. -/
theorem claim3_witness :
    ∃ u, findTx (upsertTransaction
        [mkStored "T1" (some "2024-01-01") "OLD DESC" "CP" (some 5) (some "x")]
        (mkTx "T1" "NEW DESC" none)).1 (mkTx "T1" "NEW DESC" none).id = some u ∧
      u.transactionDate = (mkTx "T1" "NEW DESC" none).transactionDate ∧
      u.bookingDate = (mkTx "T1" "NEW DESC" none).bookingDate ∧
      u.amount = (mkTx "T1" "NEW DESC" none).amount ∧
      u.currency = (mkTx "T1" "NEW DESC" none).currency ∧
      u.description = (mkTx "T1" "NEW DESC" none).description ∧
      u.counterpartyName = (mkTx "T1" "NEW DESC" none).counterpartyName ∧
      u.rawData = jsOrNullStr (mkTx "T1" "NEW DESC" none).rawData ∧
      u.originalAmount = jsOrNullQ (mkTx "T1" "NEW DESC" none).originalAmount ∧
      u.originalCurrency = jsOrNullStr (mkTx "T1" "NEW DESC" none).originalCurrency ∧
      u.country = jsOrNullStr (mkTx "T1" "NEW DESC" none).country ∧
      u.categoryId =
        (mkStored "T1" (some "2024-01-01") "OLD DESC" "CP" (some 5) (some "x")).categoryId ∧
      u.notes = (mkStored "T1" (some "2024-01-01") "OLD DESC" "CP" (some 5) (some "x")).notes :=
  claim3_upsert_merge _ _ _ (by decide)

/-! ## Claim 10 -/

/-- Claim C10: the update path of `upsertTransaction` discards the incoming
`categoryId` entirely — the stored category (quantified over *any* stored
value, including `null` with a non-null incoming category) survives the
upsert — while the insert path writes the incoming `categoryId`. -/
theorem claim10_update_discards_category :
    (∀ (s : Store) (tx : Tx) (r : StoredTx), findTx s tx.id = some r →
      ∃ u, findTx (upsertTransaction s tx).1 tx.id = some u ∧ u.categoryId = r.categoryId) ∧
    (∀ (s : Store) (tx : Tx), findTx s tx.id = none →
      findTx (upsertTransaction s tx).1 tx.id = some (insertRow tx) ∧
      (insertRow tx).categoryId = tx.categoryId) := by
  constructor
  · intro s tx r h
    exact ⟨applyUpdate tx r, (upsert_found s tx r h).2, rfl⟩
  · intro s tx h
    exact ⟨(upsert_fresh s tx h).2, rfl⟩

/-- Witness for C10: a stored row with `categoryId = null` upserted with an
incoming record carrying category 7 stays `null`; inserting a fresh record
with category 3 stores category 3. -/
theorem claim10_witness :
    (∃ u, findTx (upsertTransaction
        [mkStored "U1" (some "2024-01-01") "D" "CP" none none]
        (mkTx "U1" "D" (some 7))).1 (mkTx "U1" "D" (some 7)).id = some u ∧
      u.categoryId = (mkStored "U1" (some "2024-01-01") "D" "CP" none none).categoryId) ∧
    (findTx (upsertTransaction [] (mkTx "U2" "D" (some 3))).1 (mkTx "U2" "D" (some 3)).id =
        some (insertRow (mkTx "U2" "D" (some 3))) ∧
      (insertRow (mkTx "U2" "D" (some 3))).categoryId = (mkTx "U2" "D" (some 3)).categoryId) :=
  ⟨claim10_update_discards_category.1 _ _ _ (by decide),
   claim10_update_discards_category.2 [] _ (by decide)⟩

/-! ## Claim 9 -/

/-- Counterexample for C9: the remote-API converter `convertToEur` does *not*
round to two decimal places — converting 100 BGN yields the raw quotient
`100 / 1.95583`, which is not a two-decimal quantity. -/
theorem claim9_counterexample :
    convertToEur 100 "BGN" ≠ jsRound2 (convertToEur 100 "BGN") := by
  have h : convertToEur 100 "BGN" = 10000000 / 195583 := by
    show (100 : ℚ) / bgnToEurRate = 10000000 / 195583
    rw [bgnToEurRate]
    norm_num
  rw [h]
  have habs : |((10000000 : ℚ) / 195583)| = 10000000 / 195583 := abs_of_pos (by norm_num)
  have hr : (round ((|((10000000 : ℚ) / 195583)|) * 100) : ℤ) = 5113 := by
    rw [habs, round_eq, Int.floor_eq_iff]
    constructor
    · norm_num
    · norm_num
  unfold jsRound2
  rw [if_neg (by norm_num), hr]
  norm_num

/-- Claim C9 (amended): EUR passes through every converter untouched with no
original-amount fields; in the delimited-text importer a known non-EUR
currency is divided by its table rate and rounded to two decimals with the
original amount and currency retained, and an unknown currency is left
unconverted; the remote-API `convertToEur`, however, divides BGN by its own
fixed rate 1.95583 *without rounding* and passes every other non-EUR
currency through unchanged. -/
theorem claim9_currency_normalization :
    (∀ a : ℚ, Rev.convertCsvAmount a "EUR" = (a, none, none)) ∧
    (∀ (a r : ℚ) (c : String), c ≠ "EUR" → Rev.currencyRates.lookup c = some r → r ≠ 0 →
      Rev.convertCsvAmount a c = (jsRound2 (a / r), some a, some c)) ∧
    (∀ (a : ℚ) (c : String), c ≠ "EUR" → Rev.currencyRates.lookup c = none →
      Rev.convertCsvAmount a c = (a, none, none)) ∧
    (∀ a : ℚ, convertToEur a "EUR" = a) ∧
    (∀ a : ℚ, convertToEur a "BGN" = a / bgnToEurRate) ∧
    (∀ (a : ℚ) (c : String), c ≠ "EUR" → c ≠ "BGN" → convertToEur a c = a) := by
  refine ⟨?_, ?_, ?_, ?_, ?_, ?_⟩
  · intro a
    rfl
  · intro a r c hc hl hr
    unfold Rev.convertCsvAmount
    rw [if_neg hc, hl]
    simp only [if_pos hr]
  · intro a c hc hl
    unfold Rev.convertCsvAmount
    rw [if_neg hc, hl]
  · intro a
    rfl
  · intro a
    rfl
  · intro a c hc hb
    unfold convertToEur
    rw [if_neg hc, if_neg hb]

/-- Witness for C9 (amended): converting 100 USD through the delimited-text
importer divides by the table rate 1.08 and keeps the original amount and
currency; 100 of the unlisted currency JPY passes through both converters. -/
theorem claim9_witness :
    Rev.convertCsvAmount 100 "USD" = (jsRound2 (100 / (108 / 100)), some 100, some "USD") ∧
    Rev.convertCsvAmount 100 "JPY" = (100, none, none) ∧
    convertToEur 100 "JPY" = 100 :=
  ⟨claim9_currency_normalization.2.1 100 (108 / 100) "USD" (by decide) (by rfl) (by norm_num),
   claim9_currency_normalization.2.2.1 100 "JPY" (by decide) (by rfl),
   claim9_currency_normalization.2.2.2.2.2 100 "JPY" (by decide) (by decide)⟩

/-! ## Claim 6 -/

/-- Claim C6: `getAccessToken` reuses the stored token when its expiry is
strictly more than five minutes after now; within the buffer it attempts a
refresh when a refresh token is present, storing the new access token with
the same refresh token, and falls through to a fresh credential exchange on
refresh failure or when no usable token exists; a token expiring in four
minutes triggers the refresh attempt, one expiring in six minutes does not. -/
theorem claim6_token_lifecycle (td : TokenData) (now : Int) (refresh : RefreshOutcome)
    (exchange : ExchangeOutcome) (haccess : td.accessToken ≠ "") :
    (td.expiresAt > now + 5 * 60 * 1000 →
      getAccessToken (some td) now refresh exchange = .ok (td.accessToken, some td)) ∧
    (∀ rt a e, ¬td.expiresAt > now + 5 * 60 * 1000 → td.refreshToken = some rt →
      refresh = some (a, e) →
      getAccessToken (some td) now refresh exchange = .ok (a, some ⟨a, some rt, e⟩)) ∧
    (∀ rt, ¬td.expiresAt > now + 5 * 60 * 1000 → td.refreshToken = some rt → refresh = none →
      getAccessToken (some td) now refresh exchange = createNewToken exchange) ∧
    (getAccessToken none now refresh exchange = createNewToken exchange) ∧
    (∀ rt a e, td.expiresAt = now + 4 * 60 * 1000 → td.refreshToken = some rt →
      refresh = some (a, e) →
      getAccessToken (some td) now refresh exchange = .ok (a, some ⟨a, some rt, e⟩)) ∧
    (td.expiresAt = now + 6 * 60 * 1000 →
      getAccessToken (some td) now refresh exchange = .ok (td.accessToken, some td)) := by
  have hbase : getAccessToken (some td) now refresh exchange =
      if td.expiresAt > now + 5 * 60 * 1000 then Except.ok (td.accessToken, some td)
      else
        match td.refreshToken with
        | some rt =>
          match refreshAccessToken rt refresh with
          | .ok r => .ok r
          | .error _ => createNewToken exchange
        | none => createNewToken exchange := by
    simp only [getAccessToken]
    rw [if_pos haccess]
  refine ⟨?_, ?_, ?_, rfl, ?_, ?_⟩
  · intro h
    rw [hbase, if_pos h]
  · intro rt a e h hrt hre
    rw [hbase, if_neg h, hrt, hre]
    rfl
  · intro rt h hrt hre
    rw [hbase, if_neg h, hrt, hre]
    rfl
  · intro rt a e hexp hrt hre
    rw [hbase, if_neg (by omega), hrt, hre]
    rfl
  · intro hexp
    rw [hbase, if_pos (by omega)]

/-- Witness for C6: with `now = 0`, a token expiring at 240000 ms (four
minutes) is refreshed — the new access token is stored with the old refresh
token — while a token expiring at 360000 ms (six minutes) is reused as-is
even though a refresh outcome is available. -/
theorem claim6_witness :
    getAccessToken (some ⟨"oldTok", some "refA", 240000⟩) 0 (some ("newTok", 999999)) none =
      .ok ("newTok", some ⟨"newTok", some "refA", 999999⟩) ∧
    getAccessToken (some ⟨"oldTok", some "refA", 360000⟩) 0 (some ("newTok", 999999)) none =
      .ok ("oldTok", some ⟨"oldTok", some "refA", 360000⟩) :=
  ⟨(claim6_token_lifecycle ⟨"oldTok", some "refA", 240000⟩ 0 (some ("newTok", 999999)) none
      (by decide)).2.2.2.2.1 "refA" "newTok" 999999 (by decide) rfl rfl,
   (claim6_token_lifecycle ⟨"oldTok", some "refA", 360000⟩ 0 (some ("newTok", 999999)) none
      (by decide)).2.2.2.2.2 (by decide)⟩

/-! ## Claim 8 -/

/-- Counterexample for C8: the structured-markup normalizer does not drop a
row whose date is unparseable and whose amount is zero — the movement with
date `garbage` and amount `0` survives the parse, with the garbage date
passed through verbatim.  (The oracles agree with JavaScript on the strings
exercised: `parseFloat("0") = 0`, and `cleanDescription` is the identity on
tag-free single-spaced text.) -/
theorem claim8_counterexample :
    Xml.parseDskMovements pf0 clean0 [badMovement] =
      [{ transactionDate := some "garbage", bookingDate := some "garbage",
         description := "desc", amount := 0, counterpartyName := "X" }] := by
  show [Xml.parseMovement pf0 clean0 badMovement] = _
  have hamt : Xml.parseAmount pf0 badMovement.amountText = 0 := by decide
  have hneg : -|(0 : ℚ)| = 0 := by norm_num
  unfold Xml.parseMovement
  rw [hamt]
  simp only [badMovement]
  norm_num
  exact ⟨by decide, by decide, by decide⟩

/-- Claim C8 (amended): the delimited-text normalizer drops rows whose date
is unparseable or whose amount parses to zero, and a dropped row is skipped
without aborting the surrounding parse; the structured-markup normalizer,
however, drops nothing — every movement yields a record, and a date that
does not split into three dot-separated parts is passed through unchanged
with only a warning. -/
theorem claim8_normalizer_policy :
    (∀ (pf : String → Option ℚ) (jsDate : String → Option String) (strip : String → String)
       (cm : Rev.ColumnMap) (row : List String),
       Rev.parseRevolutDate jsDate (cm.completedDate.bind fun i => row.get? i) = none →
       Rev.parseRevolutRow pf jsDate strip cm row = none) ∧
    (∀ (pf : String → Option ℚ) (jsDate : String → Option String) (strip : String → String)
       (cm : Rev.ColumnMap) (row : List String) (td : String),
       Rev.parseRevolutDate jsDate (cm.completedDate.bind fun i => row.get? i) = some td →
       Rev.parseRevolutAmount pf (some ((cm.amount.bind fun i => row.get? i).getD "0")) = 0 →
       Rev.parseRevolutRow pf jsDate strip cm row = none) ∧
    (∀ (pf : String → Option ℚ) (jsDate : String → Option String) (strip : String → String)
       (cm : Rev.ColumnMap) (row : List String) (rest : List (List String)),
       (row.length < 3 || ((cm.amount.bind fun i => row.get? i).getD "") = "") = false →
       Rev.isCompletedState cm row = true →
       Rev.parseRevolutRow pf jsDate strip cm row = none →
       Rev.parseRevolutRows pf jsDate strip cm (row :: rest) =
         Rev.parseRevolutRows pf jsDate strip cm rest) ∧
    (∀ (pf : String → Option ℚ) (clean : Option String → String) (ms : List Movement),
       (Xml.parseDskMovements pf clean ms).length = ms.length) ∧
    (∀ ds : String, ds ≠ "" → (jsSplitChar '.' ds).length ≠ 3 →
       Xml.convertDate (some ds) = some ds) := by
  refine ⟨?_, ?_, ?_, ?_, ?_⟩
  · intro pf jsDate strip cm row h
    simp only [Rev.parseRevolutRow]
    rw [h]
  · intro pf jsDate strip cm row td h hz
    simp only [Rev.parseRevolutRow]
    rw [h]
    simp only [hz, if_pos]
  · intro pf jsDate strip cm row rest hguard hstate hrow
    unfold Rev.parseRevolutRows
    simp only [List.foldr_cons, hguard, hstate, hrow, Bool.false_eq_true, if_false,
      Bool.not_true, Bool.false_eq_true]
  · intro pf clean ms
    unfold Xml.parseDskMovements
    exact List.length_map ms _
  · intro ds hne hparts
    simp only [Xml.convertDate]
    rw [if_neg hne, if_pos hparts]

/-- Witness for C8 (amended): with the fixture column map, the row with a
garbage date is dropped, the row with amount `0` is dropped, a garbage row
inside a larger parse is skipped without aborting, and the bad movement
passes through the structured-markup normalizer while its garbage date is
returned unchanged by `convertDate`. -/
theorem claim8_witness :
    Rev.parseRevolutRow pf0 jsDate0 strip0 cm0 ["garbage", "5", "x"] = none ∧
    Rev.parseRevolutRow pf0 jsDate0 strip0 cm0 ["2024-01-15", "0", "x"] = none ∧
    Rev.parseRevolutRows pf0 jsDate0 strip0 cm0 [["garbage", "5", "x"]] =
      Rev.parseRevolutRows pf0 jsDate0 strip0 cm0 [] ∧
    (Xml.parseDskMovements pf0 clean0 [badMovement]).length = [badMovement].length ∧
    Xml.convertDate (some "garbage") = some "garbage" := by
  refine ⟨?_, ?_, ?_, ?_, ?_⟩
  · exact claim8_normalizer_policy.1 pf0 jsDate0 strip0 cm0 _ (by decide)
  · exact claim8_normalizer_policy.2.1 pf0 jsDate0 strip0 cm0 _ "2024-01-15" (by decide) (by decide)
  · exact claim8_normalizer_policy.2.2.1 pf0 jsDate0 strip0 cm0 _ [] (by decide) (by decide)
      (claim8_normalizer_policy.1 pf0 jsDate0 strip0 cm0 _ (by decide))
  · exact claim8_normalizer_policy.2.2.2.1 pf0 clean0 [badMovement]
  · exact claim8_normalizer_policy.2.2.2.2 "garbage" (by decide) (by decide)

/-! ## Claim 5 -/

/-- Each digest byte renders as two hex characters. -/
theorem flatMap_hexByte_length : ∀ l : List Nat, (l.flatMap MD5.hexByte).length = 2 * l.length := by
  intro l
  induction l with
  | nil => rfl
  | cons b t ih =>
    simp only [List.flatMap_cons, List.length_append, ih, MD5.hexByte, List.length_cons,
      List.length_nil]
    omega

/-- The MD5 digest has 16 bytes. -/
theorem digest_length (msg : List Nat) : (MD5.digest msg).length = 16 := by
  simp [MD5.digest, MD5.wordBytes]

/-- The MD5 hex rendering has 32 characters. -/
theorem hexChars_length (s : String) : (MD5.hexChars s).length = 32 := by
  unfold MD5.hexChars
  rw [flatMap_hexByte_length, digest_length]

/-- Bounded lookups into the hex alphabet stay in the alphabet. -/
theorem hexDigits_getD_mem (k : Nat) (h : k < 16) : MD5.hexDigits.getD k '0' ∈ MD5.hexDigits := by
  interval_cases k <;> decide

/-- Every character of the MD5 hex rendering is a lowercase hex digit. -/
theorem hexChars_mem (s : String) : ∀ c ∈ MD5.hexChars s, c ∈ MD5.hexDigits := by
  intro c hc
  unfold MD5.hexChars at hc
  rw [List.mem_flatMap] at hc
  obtain ⟨b, _, hcb⟩ := hc
  unfold MD5.hexByte at hcb
  simp only [List.mem_cons, List.not_mem_nil, or_false] at hcb
  rcases hcb with rfl | rfl
  · exact hexDigits_getD_mem _ (Nat.mod_lt _ (by norm_num))
  · exact hexDigits_getD_mem _ (Nat.mod_lt _ (by norm_num))

/-- Uppercasing a lowercase hex digit lands in the uppercase hex alphabet. -/
theorem hexDigits_toUpper_mem : ∀ c ∈ MD5.hexDigits, Char.toUpper c ∈ "0123456789ABCDEF".data := by
  decide

/-- Right cancellation for string concatenation. -/
theorem str_append_cancel_right {a b t : String} (h : a ++ t = b ++ t) : a = b := by
  apply String.ext
  have hd := congrArg String.data h
  rw [String.data_append, String.data_append] at hd
  exact List.append_cancel_right hd

/-- Left cancellation for string concatenation. -/
theorem str_append_cancel_left {t a b : String} (h : t ++ a = t ++ b) : a = b := by
  apply String.ext
  have hd := congrArg String.data h
  rw [String.data_append, String.data_append] at hd
  exact List.append_cancel_left hd

/-- `toFixed(2)` of the fixture amount. -/
theorem toFixed2_neg29 : toFixed2 (-29) = "-29.00" := by
  show (if (-29 : ℚ) < 0 then "-" else "") ++
      toString ((round (|(-29 : ℚ)| * 100) : ℤ).toNat / 100) ++ "." ++
      pad2 ((round (|(-29 : ℚ)| * 100) : ℤ).toNat % 100) = "-29.00"
  have hr : (round (|(-29 : ℚ)| * 100) : ℤ) = ((2900 : ℕ) : ℤ) := by
    rw [show |(-29 : ℚ)| * 100 = ((2900 : ℕ) : ℚ) by norm_num, round_natCast]
  rw [hr, if_pos (by norm_num : (-29 : ℚ) < 0)]
  decide

/-- `toFixed(2)` of the changed fixture amount. -/
theorem toFixed2_neg30 : toFixed2 (-30) = "-30.00" := by
  show (if (-30 : ℚ) < 0 then "-" else "") ++
      toString ((round (|(-30 : ℚ)| * 100) : ℤ).toNat / 100) ++ "." ++
      pad2 ((round (|(-30 : ℚ)| * 100) : ℤ).toNat % 100) = "-30.00"
  have hr : (round (|(-30 : ℚ)| * 100) : ℤ) = ((3000 : ℕ) : ℤ) := by
    rw [show |(-30 : ℚ)| * 100 = ((3000 : ℕ) : ℚ) by norm_num, round_natCast]
  rw [hr, if_pos (by norm_num : (-30 : ℚ) < 0)]
  decide

/-- The fixture's hash input, rendered. -/
theorem hashInput_idf0 :
    Dsk.hashInput idf0 = "2024-03-15|Card purchase SHOP|-29.00|SHOP LTD" := by
  show "2024-03-15" ++ "|" ++ "Card purchase SHOP" ++ "|" ++ toFixed2 (-29) ++ "|" ++ "SHOP LTD" =
    "2024-03-15|Card purchase SHOP|-29.00|SHOP LTD"
  rw [toFixed2_neg29]
  decide

/-- The hash input of the fixture with only its date changed. -/
theorem hashInput_idf0_date :
    Dsk.hashInput { idf0 with transactionDate := some "2024-03-16" } =
      "2024-03-16|Card purchase SHOP|-29.00|SHOP LTD" := by
  show "2024-03-16" ++ "|" ++ "Card purchase SHOP" ++ "|" ++ toFixed2 (-29) ++ "|" ++ "SHOP LTD" = _
  rw [toFixed2_neg29]
  decide

/-- The hash input of the fixture with only its description changed. -/
theorem hashInput_idf0_desc :
    Dsk.hashInput { idf0 with description := "Card purchase SHOP2" } =
      "2024-03-15|Card purchase SHOP2|-29.00|SHOP LTD" := by
  show "2024-03-15" ++ "|" ++ "Card purchase SHOP2" ++ "|" ++ toFixed2 (-29) ++ "|" ++ "SHOP LTD" = _
  rw [toFixed2_neg29]
  decide

/-- The hash input of the fixture with only its amount changed. -/
theorem hashInput_idf0_amt :
    Dsk.hashInput { idf0 with amount := -30 } =
      "2024-03-15|Card purchase SHOP|-30.00|SHOP LTD" := by
  show "2024-03-15" ++ "|" ++ "Card purchase SHOP" ++ "|" ++ toFixed2 (-30) ++ "|" ++ "SHOP LTD" = _
  rw [toFixed2_neg30]
  decide

/-- The hash input of the fixture with only its counterparty changed. -/
theorem hashInput_idf0_cp :
    Dsk.hashInput { idf0 with counterpartyName := "OTHER LTD" } =
      "2024-03-15|Card purchase SHOP|-29.00|OTHER LTD" := by
  show "2024-03-15" ++ "|" ++ "Card purchase SHOP" ++ "|" ++ toFixed2 (-29) ++ "|" ++ "OTHER LTD" = _
  rw [toFixed2_neg29]
  decide

/-- Claim C5: the identity generators are deterministic — equal (date,
description, two-decimal amount, counterparty) fields give equal DSK ids, and
equal raw rows give equal REV ids; every id is the prefix plus the first 16
hex characters of the content hash, uppercased; and changing any single
input field changes the hashed content (shown universally on the hash input,
whose injectivity per field is proved, and on the ids themselves at the
concrete fixture, where each single-field change changes the id). -/
theorem claim5_deterministic_identity :
    (∀ t₁ t₂ : Dsk.IdFields, t₁.transactionDate.getD "" = t₂.transactionDate.getD "" →
      t₁.description = t₂.description → toFixed2 t₁.amount = toFixed2 t₂.amount →
      t₁.counterpartyName = t₂.counterpartyName →
      Dsk.generateTransactionId t₁ = Dsk.generateTransactionId t₂) ∧
    (∀ r₁ r₂ : List String, r₁ = r₂ →
      Rev.generateTransactionId r₁ = Rev.generateTransactionId r₂) ∧
    (∀ t : Dsk.IdFields, ∃ h : List Char,
      Dsk.generateTransactionId t = "DSK_" ++ String.mk (h.map Char.toUpper) ∧
      h.length = 16 ∧ (∀ c ∈ h, c ∈ MD5.hexDigits) ∧
      (∀ c ∈ h.map Char.toUpper, c ∈ "0123456789ABCDEF".data)) ∧
    (∀ row : List String, ∃ h : List Char,
      Rev.generateTransactionId row = "REV_" ++ String.mk (h.map Char.toUpper) ∧
      h.length = 16 ∧ (∀ c ∈ h, c ∈ MD5.hexDigits) ∧
      (∀ c ∈ h.map Char.toUpper, c ∈ "0123456789ABCDEF".data)) ∧
    (∀ t₁ t₂ : Dsk.IdFields, t₁.description = t₂.description →
      toFixed2 t₁.amount = toFixed2 t₂.amount → t₁.counterpartyName = t₂.counterpartyName →
      t₁.transactionDate.getD "" ≠ t₂.transactionDate.getD "" →
      Dsk.hashInput t₁ ≠ Dsk.hashInput t₂) ∧
    (∀ t₁ t₂ : Dsk.IdFields, t₁.transactionDate.getD "" = t₂.transactionDate.getD "" →
      toFixed2 t₁.amount = toFixed2 t₂.amount → t₁.counterpartyName = t₂.counterpartyName →
      t₁.description ≠ t₂.description →
      Dsk.hashInput t₁ ≠ Dsk.hashInput t₂) ∧
    (∀ t₁ t₂ : Dsk.IdFields, t₁.transactionDate.getD "" = t₂.transactionDate.getD "" →
      t₁.description = t₂.description → t₁.counterpartyName = t₂.counterpartyName →
      toFixed2 t₁.amount ≠ toFixed2 t₂.amount →
      Dsk.hashInput t₁ ≠ Dsk.hashInput t₂) ∧
    (∀ t₁ t₂ : Dsk.IdFields, t₁.transactionDate.getD "" = t₂.transactionDate.getD "" →
      t₁.description = t₂.description → toFixed2 t₁.amount = toFixed2 t₂.amount →
      t₁.counterpartyName ≠ t₂.counterpartyName →
      Dsk.hashInput t₁ ≠ Dsk.hashInput t₂) ∧
    (Dsk.generateTransactionId idf0 ≠
      Dsk.generateTransactionId { idf0 with transactionDate := some "2024-03-16" }) ∧
    (Dsk.generateTransactionId idf0 ≠
      Dsk.generateTransactionId { idf0 with description := "Card purchase SHOP2" }) ∧
    (Dsk.generateTransactionId idf0 ≠
      Dsk.generateTransactionId { idf0 with amount := -30 }) ∧
    (Dsk.generateTransactionId idf0 ≠
      Dsk.generateTransactionId { idf0 with counterpartyName := "OTHER LTD" }) := by
  have hinput : ∀ t : Dsk.IdFields, Dsk.hashInput t =
      t.transactionDate.getD "" ++ "|" ++ t.description ++ "|" ++ toFixed2 t.amount ++ "|"
        ++ t.counterpartyName := fun t => rfl
  refine ⟨?_, ?_, ?_, ?_, ?_, ?_, ?_, ?_, ?_, ?_, ?_, ?_⟩
  · intro t₁ t₂ h1 h2 h3 h4
    unfold Dsk.generateTransactionId
    rw [hinput t₁, h1, h2, h3, h4, ← hinput t₂]
  · intro r₁ r₂ h
    rw [h]
  · intro t
    refine ⟨(MD5.hexChars (Dsk.hashInput t)).take 16, rfl, ?_, ?_, ?_⟩
    · rw [List.length_take, hexChars_length]
      decide
    · intro c hc
      exact hexChars_mem _ c (List.mem_of_mem_take hc)
    · intro c hc
      rw [List.mem_map] at hc
      obtain ⟨c₀, hc₀, rfl⟩ := hc
      exact hexDigits_toUpper_mem c₀ (hexChars_mem _ c₀ (List.mem_of_mem_take hc₀))
  · intro row
    refine ⟨(MD5.hexChars (String.intercalate "|" row)).take 16, rfl, ?_, ?_, ?_⟩
    · rw [List.length_take, hexChars_length]
      decide
    · intro c hc
      exact hexChars_mem _ c (List.mem_of_mem_take hc)
    · intro c hc
      rw [List.mem_map] at hc
      obtain ⟨c₀, hc₀, rfl⟩ := hc
      exact hexDigits_toUpper_mem c₀ (hexChars_mem _ c₀ (List.mem_of_mem_take hc₀))
  · intro t₁ t₂ h2 h3 h4 hne heq
    rw [hinput t₁, hinput t₂, h2, h3, h4] at heq
    exact hne (str_append_cancel_right (str_append_cancel_right (str_append_cancel_right
      (str_append_cancel_right (str_append_cancel_right (str_append_cancel_right heq))))))
  · intro t₁ t₂ h1 h3 h4 hne heq
    rw [hinput t₁, hinput t₂, h1, h3, h4] at heq
    exact hne (str_append_cancel_left (str_append_cancel_right (str_append_cancel_right
      (str_append_cancel_right (str_append_cancel_right heq)))))
  · intro t₁ t₂ h1 h2 h4 hne heq
    rw [hinput t₁, hinput t₂, h1, h2, h4] at heq
    exact hne (str_append_cancel_left (str_append_cancel_right (str_append_cancel_right heq)))
  · intro t₁ t₂ h1 h2 h3 hne heq
    rw [hinput t₁, hinput t₂, h1, h2, h3] at heq
    exact hne (str_append_cancel_left heq)
  · unfold Dsk.generateTransactionId
    rw [hashInput_idf0, hashInput_idf0_date]
    decide
  · unfold Dsk.generateTransactionId
    rw [hashInput_idf0, hashInput_idf0_desc]
    decide
  · unfold Dsk.generateTransactionId
    rw [hashInput_idf0, hashInput_idf0_amt]
    decide
  · unfold Dsk.generateTransactionId
    rw [hashInput_idf0, hashInput_idf0_cp]
    decide

/-- Witness for C5: determinism applied at the concrete fixture, and the
per-field hash-input injectivity applied at the fixture and its date
variant. -/
theorem claim5_witness :
    Dsk.generateTransactionId idf0 = Dsk.generateTransactionId idf0 ∧
    Dsk.hashInput idf0 ≠ Dsk.hashInput { idf0 with transactionDate := some "2024-03-16" } :=
  ⟨claim5_deterministic_identity.1 idf0 idf0 rfl rfl rfl rfl,
   claim5_deterministic_identity.2.2.2.2.1 idf0 { idf0 with transactionDate := some "2024-03-16" }
     rfl rfl rfl (by decide)⟩

/-! ## Claims 1 and 2 -/

/-- `findTx` through a cons cell. -/
theorem findTx_cons (r : StoredTx) (s : Store) (id : String) :
    findTx (r :: s) id = if r.id = id then some r else findTx s id := by
  unfold findTx
  rcases Decidable.em (r.id = id) with h | h
  · rw [List.find?_cons_of_pos _ (by simp [h]), if_pos h]
  · rw [List.find?_cons_of_neg _ (by simp [h]), if_neg h]

/-- The failing-record step of the import loop. -/
theorem importLoop_cons_fail (fails : Tx → Bool) (s : Store) (tx : Tx) (rest : List Tx)
    (h : fails tx = true) :
    importLoop fails s (tx :: rest) =
      ((importLoop fails s rest).1,
       { (importLoop fails s rest).2 with errors := tx.id :: (importLoop fails s rest).2.errors }) := by
  simp only [importLoop, h, if_true]

/-- The non-failing step of the import loop. -/
theorem importLoop_cons_ok (fails : Tx → Bool) (s : Store) (tx : Tx) (rest : List Tx)
    (h : fails tx = false) :
    importLoop fails s (tx :: rest) =
      (if (upsertTransaction s tx).2 then
        ((importLoop fails (upsertTransaction s tx).1 rest).1,
         { (importLoop fails (upsertTransaction s tx).1 rest).2 with
            imported := (importLoop fails (upsertTransaction s tx).1 rest).2.imported + 1 })
      else
        ((importLoop fails (upsertTransaction s tx).1 rest).1,
         { (importLoop fails (upsertTransaction s tx).1 rest).2 with
            skipped := (importLoop fails (upsertTransaction s tx).1 rest).2.skipped + 1 })) := by
  simp only [importLoop, h, Bool.false_eq_true, if_false]

/-- A batch of fresh records with pairwise distinct ids imports with
`imported = N, skipped = 0`, leaves every batch id present, and preserves
every previously present id. -/
theorem importLoop_fresh : ∀ (txs : List Tx) (s : Store),
    (txs.map Tx.id).Nodup →
    (∀ tx ∈ txs, findTx s tx.id = none) →
    (importLoop noFail s txs).2 = ⟨txs.length, 0, []⟩ ∧
    (∀ tx ∈ txs, (findTx (importLoop noFail s txs).1 tx.id).isSome) ∧
    (∀ id, (findTx s id).isSome → (findTx (importLoop noFail s txs).1 id).isSome) := by
  intro txs
  induction txs with
  | nil => exact fun s _ _ => ⟨rfl, by simp, fun id h => h⟩
  | cons tx rest ih =>
    intro s hnd hfresh
    have hfind : findTx s tx.id = none := hfresh tx (by simp)
    have hup := upsert_fresh s tx hfind
    have heq : importLoop noFail s (tx :: rest) =
        ((importLoop noFail (insertRow tx :: s) rest).1,
         { (importLoop noFail (insertRow tx :: s) rest).2 with
            imported := (importLoop noFail (insertRow tx :: s) rest).2.imported + 1 }) := by
      rw [importLoop_cons_ok noFail s tx rest rfl, hup.1]
      rfl
    have hnd2 : tx.id ∉ List.map Tx.id rest ∧ (List.map Tx.id rest).Nodup := by
      rw [List.map_cons, List.nodup_cons] at hnd
      exact hnd
    have hndr := hnd2.2
    have hhead := hnd2.1
    have hfreshr : ∀ q ∈ rest, findTx (insertRow tx :: s) q.id = none := by
      intro q hq
      rw [findTx_cons]
      rw [if_neg]
      · exact hfresh q (List.mem_cons_of_mem _ hq)
      · show ¬(insertRow tx).id = q.id
        intro hcontra
        exact hhead (by
          rw [List.mem_map]
          exact ⟨q, hq, by simpa [insertRow] using hcontra.symm⟩)
    obtain ⟨ih1, ih2, ih3⟩ := ih (insertRow tx :: s) hndr hfreshr
    refine ⟨?_, ?_, ?_⟩
    · rw [heq, ih1]
      rfl
    · intro q hq
      rcases List.mem_cons.mp hq with rfl | hq'
      · rw [heq]
        exact ih3 q.id (by rw [findTx_cons]; simp [insertRow])
      · rw [heq]
        exact ih2 q hq'
    · intro id hid
      rw [heq]
      exact ih3 id (by
        rw [findTx_cons]
        rcases Decidable.em ((insertRow tx).id = id) with h | h
        · rw [if_pos h]; rfl
        · rw [if_neg h]; exact hid)

/-- A batch whose ids are all already present imports with
`imported = 0, skipped = N`. -/
theorem importLoop_present : ∀ (txs : List Tx) (s : Store),
    (∀ tx ∈ txs, (findTx s tx.id).isSome) →
    (importLoop noFail s txs).2 = ⟨0, txs.length, []⟩ := by
  intro txs
  induction txs with
  | nil => exact fun s _ => rfl
  | cons tx rest ih =>
    intro s hpres
    obtain ⟨r, hr⟩ := Option.isSome_iff_exists.mp (hpres tx (by simp))
    have hup := upsert_found s tx r hr
    have heq : importLoop noFail s (tx :: rest) =
        ((importLoop noFail (upsertTransaction s tx).1 rest).1,
         { (importLoop noFail (upsertTransaction s tx).1 rest).2 with
            skipped := (importLoop noFail (upsertTransaction s tx).1 rest).2.skipped + 1 }) := by
      rw [importLoop_cons_ok noFail s tx rest rfl]
      rw [if_neg (by rw [hup.1]; exact Bool.false_ne_true)]
    have hpresr : ∀ q ∈ rest, (findTx (upsertTransaction s tx).1 q.id).isSome := by
      intro q hq
      exact upsert_preserves_present s tx q.id (hpres q (List.mem_cons_of_mem _ hq))
    rw [heq, ih (upsertTransaction s tx).1 hpresr]
    rfl

/-- Claim C1: importing a batch of fresh records with distinct deterministic
ids yields `imported = N, skipped = 0` and no errors; importing the same
batch again on the resulting store yields `imported = 0, skipped = N`,
because every id now exists and the upsert takes the update branch, counted
as skipped. -/
theorem claim1_idempotent_import (s : Store) (txs : List Tx)
    (hnodup : (txs.map Tx.id).Nodup)
    (hfresh : ∀ tx ∈ txs, findTx s tx.id = none) :
    (importTransactionsBatch noFail true s txs).2 = Except.ok ⟨txs.length, 0, []⟩ ∧
    (importTransactionsBatch noFail true (importTransactionsBatch noFail true s txs).1 txs).2 =
      Except.ok ⟨0, txs.length, []⟩ := by
  obtain ⟨h1, h2, _⟩ := importLoop_fresh txs s hnodup hfresh
  constructor
  · show Except.ok (importLoop noFail s txs).2 = _
    rw [h1]
  · show Except.ok (importLoop noFail (importLoop noFail s txs).1 txs).2 = _
    rw [importLoop_present txs (importLoop noFail s txs).1 h2]

/-- Witness for C1: a two-record fresh batch imports as `(2, 0)` the first
time and `(0, 2)` the second time. -/
theorem claim1_witness :
    (importTransactionsBatch noFail true [] [mkTx "W1" "A" none, mkTx "W2" "B" none]).2 =
      Except.ok ⟨2, 0, []⟩ ∧
    (importTransactionsBatch noFail true
      (importTransactionsBatch noFail true [] [mkTx "W1" "A" none, mkTx "W2" "B" none]).1
      [mkTx "W1" "A" none, mkTx "W2" "B" none]).2 = Except.ok ⟨0, 2, []⟩ :=
  claim1_idempotent_import [] [mkTx "W1" "A" none, mkTx "W2" "B" none] (by decide) (by decide)

/-- A run with per-record failures equals the failure-free run on the
non-failing records, with the failing records' ids collected in `errors` in
encounter order. -/
theorem importLoop_filter (fails : Tx → Bool) : ∀ (txs : List Tx) (s : Store),
    importLoop fails s txs =
      ((importLoop noFail s (txs.filter fun t => !fails t)).1,
       { (importLoop noFail s (txs.filter fun t => !fails t)).2 with
         errors := (txs.filter fails).map Tx.id }) := by
  intro txs
  induction txs with
  | nil => intro s; rfl
  | cons tx rest ih =>
    intro s
    cases hf : fails tx with
    | true =>
      rw [importLoop_cons_fail fails s tx rest hf, ih s]
      have hfil : (tx :: rest).filter (fun t => !fails t) = rest.filter fun t => !fails t := by
        simp [List.filter_cons, hf]
      have hfil2 : (tx :: rest).filter fails = tx :: rest.filter fails := by
        simp [List.filter_cons, hf]
      rw [hfil, hfil2]
      rfl
    | false =>
      have hfil : (tx :: rest).filter (fun t => !fails t) =
          tx :: rest.filter fun t => !fails t := by
        simp [List.filter_cons, hf]
      have hfil2 : (tx :: rest).filter fails = rest.filter fails := by
        simp [List.filter_cons, hf]
      rw [importLoop_cons_ok fails s tx rest hf, hfil, hfil2,
        importLoop_cons_ok noFail s tx (rest.filter fun t => !fails t) rfl,
        ih (upsertTransaction s tx).1]
      cases hu : (upsertTransaction s tx).2 <;> simp

/-- Claim C2: a per-record upsert failure is caught and recorded in `errors`
while the loop continues, the surrounding storage transaction commits
regardless of per-record errors (only a failing commit rolls back to the
initial store), and in a five-record batch whose third record fails the
result reports four imports with record 3 in `errors` and records 1, 2, 4, 5
durably persisted. -/
theorem claim2_partial_batch (fails : Tx → Bool) (s : Store) (t1 t2 t3 t4 t5 : Tx)
    (hf1 : fails t1 = false) (hf2 : fails t2 = false) (hf3 : fails t3 = true)
    (hf4 : fails t4 = false) (hf5 : fails t5 = false)
    (hnd : ([t1, t2, t4, t5].map Tx.id).Nodup)
    (hfr : ∀ tx ∈ [t1, t2, t4, t5], findTx s tx.id = none) :
    (∀ (s' : Store) (txs : List Tx),
      importTransactionsBatch fails true s' txs =
        ((importLoop fails s' txs).1, Except.ok (importLoop fails s' txs).2) ∧
      importTransactionsBatch fails false s' txs = (s', Except.error "commit failed") ∧
      (importLoop fails s' txs).2.errors = (txs.filter fails).map Tx.id ∧
      (importLoop fails s' txs).1 = (importLoop noFail s' (txs.filter fun t => !fails t)).1) ∧
    (importTransactionsBatch fails true s [t1, t2, t3, t4, t5]).2 =
      Except.ok ⟨4, 0, [t3.id]⟩ ∧
    (∀ tx ∈ [t1, t2, t4, t5],
      (findTx (importTransactionsBatch fails true s [t1, t2, t3, t4, t5]).1 tx.id).isSome) := by
  have hfil : ([t1, t2, t3, t4, t5].filter fun t => !fails t) = [t1, t2, t4, t5] := by
    simp [List.filter_cons, hf1, hf2, hf3, hf4, hf5]
  have hfil2 : ([t1, t2, t3, t4, t5].filter fails) = [t3] := by
    simp [List.filter_cons, hf1, hf2, hf3, hf4, hf5]
  obtain ⟨g1, g2, _⟩ := importLoop_fresh [t1, t2, t4, t5] s hnd hfr
  have hrun : importLoop fails s [t1, t2, t3, t4, t5] =
      ((importLoop noFail s [t1, t2, t4, t5]).1,
       { (importLoop noFail s [t1, t2, t4, t5]).2 with errors := [t3.id] }) := by
    rw [importLoop_filter fails [t1, t2, t3, t4, t5] s, hfil, hfil2]
    rfl
  refine ⟨fun s' txs => ⟨rfl, rfl, ?_, ?_⟩, ?_, ?_⟩
  · rw [importLoop_filter fails txs s']
  · rw [importLoop_filter fails txs s']
  · show Except.ok (importLoop fails s [t1, t2, t3, t4, t5]).2 = _
    rw [hrun, g1]
    rfl
  · intro tx htx
    show (findTx (importLoop fails s [t1, t2, t3, t4, t5]).1 tx.id).isSome
    rw [hrun]
    exact g2 tx htx

/-- Witness for C2: five concrete records where only `B3`'s upsert throws —
the batch commits with `imported = 4`, `errors = [B3]`, and `B1`, `B2`,
`B4`, `B5` all persisted. -/
theorem claim2_witness :
    (importTransactionsBatch failsB3 true []
      [mkTx "B1" "D" none, mkTx "B2" "D" none, mkTx "B3" "D" none,
       mkTx "B4" "D" none, mkTx "B5" "D" none]).2 =
      Except.ok ⟨4, 0, [(mkTx "B3" "D" none).id]⟩ ∧
    (∀ tx ∈ [mkTx "B1" "D" none, mkTx "B2" "D" none, mkTx "B4" "D" none, mkTx "B5" "D" none],
      (findTx (importTransactionsBatch failsB3 true []
        [mkTx "B1" "D" none, mkTx "B2" "D" none, mkTx "B3" "D" none,
         mkTx "B4" "D" none, mkTx "B5" "D" none]).1 tx.id).isSome) :=
  ⟨(claim2_partial_batch failsB3 [] (mkTx "B1" "D" none) (mkTx "B2" "D" none) (mkTx "B3" "D" none)
      (mkTx "B4" "D" none) (mkTx "B5" "D" none) (by decide) (by decide) (by decide) (by decide)
      (by decide) (by decide) (by decide)).2.1,
   (claim2_partial_batch failsB3 [] (mkTx "B1" "D" none) (mkTx "B2" "D" none) (mkTx "B3" "D" none)
      (mkTx "B4" "D" none) (mkTx "B5" "D" none) (by decide) (by decide) (by decide) (by decide)
      (by decide) (by decide) (by decide)).2.2⟩

/-! ## Claim 4 -/

instance : IsTotal Rule ruleOrd :=
  ⟨by intro a b; unfold ruleOrd; omega⟩

instance : IsTrans Rule ruleOrd :=
  ⟨by intro a b c hab hbc; unfold ruleOrd at *; omega⟩

/-- The SQL ordering key implies the JavaScript comparator's key. -/
theorem ruleOrd_imp_prioOrd {a b : Rule} (h : ruleOrd a b) : prioOrd a b := by
  unfold ruleOrd at h
  unfold prioOrd
  omega

/-- Two lists sorted by (priority desc, creation asc) with the same elements
are equal, provided creation times are injective on the elements. -/
theorem sorted_rules_ext : ∀ (l₁ l₂ : List Rule), l₁.Perm l₂ →
    l₁.Pairwise ruleOrd → l₂.Pairwise ruleOrd →
    (∀ a ∈ l₁, ∀ b ∈ l₁, a.createdAt = b.createdAt → a = b) → l₁ = l₂ := by
  intro l₁
  induction l₁ with
  | nil => intro l₂ hp _ _ _; exact (hp.nil_eq).symm ▸ rfl
  | cons a t₁ ih =>
    intro l₂ hp hs₁ hs₂ hinj
    cases l₂ with
    | nil => exact absurd hp.symm.nil_eq (by simp)
    | cons b t₂ =>
      have hab : a = b := by
        have ha₂ : a ∈ b :: t₂ := hp.mem_iff.mp (by simp)
        have hb₁ : b ∈ a :: t₁ := hp.mem_iff.mpr (by simp)
        rcases List.mem_cons.mp ha₂ with h | ha₂'
        · exact h
        rcases List.mem_cons.mp hb₁ with h | hb₁'
        · exact h.symm
        have h₁ : ruleOrd a b := (List.pairwise_cons.mp hs₁).1 b hb₁'
        have h₂ : ruleOrd b a := (List.pairwise_cons.mp hs₂).1 a ha₂'
        have hcreq : a.createdAt = b.createdAt := by
          unfold ruleOrd at h₁ h₂
          omega
        exact hinj a (by simp) b (by simp [hb₁']) hcreq
      subst hab
      have hpt : t₁.Perm t₂ := hp.cons_inv
      have := ih t₂ hpt (List.pairwise_cons.mp hs₁).2 (List.pairwise_cons.mp hs₂).2
        (fun x hx y hy h => hinj x (by simp [hx]) y (by simp [hy]) h)
      rw [this]

/-- The refinement: under the invariants that every rule's category row
exists and creation times are injective, the source's categorizer equals the
spec's (filter active, sort by priority descending with creation-order
tie-break, first match). -/
theorem categorize_refines (db : RulesDb) (description counterpartyName : String)
    (hjoin : ∀ r ∈ db.rules, (db.categories.any fun c => c.id = r.categoryId) = true)
    (hinj : ∀ a ∈ db.rules, ∀ b ∈ db.rules, a.createdAt = b.createdAt → a = b) :
    categorizeTransaction db description counterpartyName =
      specCategorize db.rules description counterpartyName := by
  unfold categorizeTransaction specCategorize getAllCategorizationRules
  rw [List.filter_eq_self.mpr hjoin]
  set L := (db.rules.insertionSort ruleOrd).filter (fun r => r.active) with hL
  have hsortL : L.Pairwise ruleOrd :=
    (List.sorted_insertionSort ruleOrd db.rules).filter _
  have hsortLp : L.Pairwise prioOrd := hsortL.imp ruleOrd_imp_prioOrd
  rw [List.Sorted.insertionSort_eq hsortLp]
  have hperm : L.Perm ((db.rules.filter fun r => r.active).insertionSort ruleOrd) := by
    refine List.Perm.trans ?_ (List.perm_insertionSort ruleOrd _).symm
    exact (List.perm_insertionSort ruleOrd db.rules).filter _
  have hsortR : ((db.rules.filter fun r => r.active).insertionSort ruleOrd).Pairwise ruleOrd :=
    List.sorted_insertionSort ruleOrd _
  have hLmem : ∀ x ∈ L, x ∈ db.rules := by
    intro x hx
    have := List.mem_of_mem_filter hx
    exact (List.mem_insertionSort ruleOrd).mp this
  rw [sorted_rules_ext L _ hperm hsortL hsortR
    (fun x hx y hy h => hinj x (hLmem x hx) y (hLmem y hy) h)]

/-- Claim C4: `categorizeTransaction` implements the spec's algorithm (keep
active rules, priority descending, creation-order tie-break earliest first,
uppercase `description + " " + counterparty` search string, `|`-split
trimmed alternatives, first non-empty substring match wins, `null`
otherwise); in particular with two active matching rules of priorities 10
and 1 the priority-10 category wins regardless of insertion order. -/
theorem claim4_rule_priority (db : RulesDb) (description counterpartyName : String)
    (hjoin : ∀ r ∈ db.rules, (db.categories.any fun c => c.id = r.categoryId) = true)
    (hinj : ∀ a ∈ db.rules, ∀ b ∈ db.rules, a.createdAt = b.createdAt → a = b) :
    categorizeTransaction db description counterpartyName =
      specCategorize db.rules description counterpartyName ∧
    ((∀ r ∈ db.rules, r.active = true →
        ruleMatches (searchTextOf description counterpartyName) r = false) →
      categorizeTransaction db description counterpartyName = none) ∧
    (∀ (rA rB : Rule) (cats : List Category) (rl : List Rule),
      rA.priority = 10 → rB.priority = 1 → rA.active = true → rB.active = true →
      ruleMatches (searchTextOf description counterpartyName) rA = true →
      (cats.any fun c => c.id = rA.categoryId) = true →
      (cats.any fun c => c.id = rB.categoryId) = true →
      rA.createdAt ≠ rB.createdAt →
      rl = [rA, rB] ∨ rl = [rB, rA] →
      categorizeTransaction ⟨rl, cats⟩ description counterpartyName = some rA.categoryId) := by
  refine ⟨categorize_refines db description counterpartyName hjoin hinj, ?_, ?_⟩
  · intro hnone
    rw [categorize_refines db description counterpartyName hjoin hinj]
    unfold specCategorize
    rw [List.findSome?_eq_none_iff]
    intro x hx
    have hxf : x ∈ db.rules.filter fun r => r.active :=
      (List.mem_insertionSort ruleOrd).mp hx
    have hxr : x ∈ db.rules := List.mem_of_mem_filter hxf
    have hxa : x.active = true := by simpa using List.of_mem_filter hxf
    rw [hnone x hxr hxa]
    rfl
  · intro rA rB cats rl hpA hpB haA haB hmA hcA hcB hcr horder
    have hjoin₂ : ∀ r ∈ rl, (cats.any fun c => c.id = r.categoryId) = true := by
      intro r hr
      rcases horder with rfl | rfl <;> simp only [List.mem_cons, List.not_mem_nil, or_false] at hr
      · rcases hr with rfl | rfl
        · exact hcA
        · exact hcB
      · rcases hr with rfl | rfl
        · exact hcB
        · exact hcA
    have hinj₂ : ∀ a ∈ rl, ∀ b ∈ rl, a.createdAt = b.createdAt → a = b := by
      intro a ha b hb hcreq
      rcases horder with rfl | rfl <;>
        simp only [List.mem_cons, List.not_mem_nil, or_false] at ha hb <;>
        rcases ha with rfl | rfl <;> rcases hb with rfl | rfl <;>
        first
          | rfl
          | exact absurd hcreq hcr
          | exact absurd hcreq.symm hcr
    rw [categorize_refines ⟨rl, cats⟩ description counterpartyName hjoin₂ hinj₂]
    unfold specCategorize
    have hordAB : ruleOrd rA rB := by
      unfold ruleOrd
      omega
    have hfilter : (rl.filter fun r => r.active) = rl := by
      rcases horder with rfl | rfl <;> simp [List.filter_cons, haA, haB]
    have hsorted : (rl.filter fun r => r.active).insertionSort ruleOrd = [rA, rB] := by
      rw [hfilter]
      rcases horder with rfl | rfl
      · show List.orderedInsert ruleOrd rA (List.orderedInsert ruleOrd rB []) = [rA, rB]
        show List.orderedInsert ruleOrd rA [rB] = [rA, rB]
        unfold List.orderedInsert
        rw [if_pos hordAB]
      · show List.orderedInsert ruleOrd rB (List.orderedInsert ruleOrd rA []) = [rA, rB]
        show List.orderedInsert ruleOrd rB [rA] = [rA, rB]
        unfold List.orderedInsert
        rw [if_neg (show ¬ruleOrd rB rA by unfold ruleOrd; omega)]
        rfl
    rw [hsorted]
    simp [List.findSome?_cons, hmA]

/-- Witness for C4: the two fixture rules (priorities 10 and 1, both
matching `CARD PURCHASE SHOP `) give the priority-10 category 42 in both
insertion orders. -/
theorem claim4_witness :
    categorizeTransaction ⟨[ruleA, ruleB], catsAB⟩ "Card purchase SHOP" "" = some ruleA.categoryId ∧
    categorizeTransaction ⟨[ruleB, ruleA], catsAB⟩ "Card purchase SHOP" "" = some ruleA.categoryId :=
  ⟨(claim4_rule_priority ⟨[ruleA, ruleB], catsAB⟩ "Card purchase SHOP" ""
      (by decide) (by decide)).2.2 ruleA ruleB catsAB [ruleA, ruleB]
      rfl rfl rfl rfl (by decide) (by decide) (by decide) (by decide) (Or.inl rfl),
   (claim4_rule_priority ⟨[ruleB, ruleA], catsAB⟩ "Card purchase SHOP" ""
      (by decide) (by decide)).2.2 ruleA ruleB catsAB [ruleB, ruleA]
      rfl rfl rfl rfl (by decide) (by decide) (by decide) (by decide) (Or.inr rfl)⟩

/-! ## Claim 7 -/

/-- The frame relation is reflexive. -/
theorem frameR_refl (r : StoredTx) : frameR r r := ⟨rfl, Or.inl rfl⟩

/-- The frame relation composes. -/
theorem frameR_trans {a b c : StoredTx} (h₁ : frameR a b) (h₂ : frameR b c) : frameR a c := by
  obtain ⟨e₁, d₁⟩ := h₁
  obtain ⟨e₂, d₂⟩ := h₂
  constructor
  · cases a
    cases b
    cases c
    simp only [StoredTx.mk.injEq, frameR] at e₁ e₂ ⊢
    simp_all
  · rcases d₂ with h | ⟨hb, hc⟩
    · rcases d₁ with h' | ⟨ha, hb'⟩
      · exact Or.inl (h.trans h')
      · exact Or.inr ⟨ha, h ▸ hb'⟩
    · rcases d₁ with h' | ⟨ha, hb'⟩
      · exact Or.inr ⟨h' ▸ hb, hc⟩
      · exact absurd hb hb'

/-- The frame relation holds of any store with itself. -/
theorem forall₂_frameR_refl : ∀ l : Store, List.Forall₂ frameR l l := by
  intro l
  induction l with
  | nil => exact .nil
  | cons r t ih => exact .cons (frameR_refl r) ih

/-- The frame relation composes over whole stores. -/
theorem forall₂_frameR_trans : ∀ {l₁ l₂ l₃ : Store},
    List.Forall₂ frameR l₁ l₂ → List.Forall₂ frameR l₂ l₃ → List.Forall₂ frameR l₁ l₃ := by
  intro l₁ l₂ l₃ h₁
  induction h₁ generalizing l₃ with
  | nil =>
    intro h₂
    cases h₂
    exact .nil
  | cons h t ih =>
    intro h₂
    cases h₂ with
    | cons h' t' => exact .cons (frameR_trans h h') (ih t')

/-- Setting the category of a row that is currently uncategorized satisfies
the frame relation pointwise. -/
theorem forall₂_frameR_update (s : Store) (id : String) (c : Nat)
    (hnone : ∀ r ∈ s, r.id = id → r.categoryId = none) :
    List.Forall₂ frameR s (updateTransactionCategory s id c) := by
  unfold updateTransactionCategory
  induction s with
  | nil => exact .nil
  | cons r t ih =>
    rw [List.map_cons]
    refine .cons ?_ (ih fun q hq hqid => hnone q (List.mem_cons_of_mem _ hq) hqid)
    by_cases h : r.id = id
    · rw [if_pos h]
      exact ⟨by cases r; rfl, Or.inr ⟨hnone r (by simp) h, by simp⟩⟩
    · rw [if_neg h]
      exact frameR_refl r

/-- Category updates do not change the id column. -/
theorem update_map_id (s : Store) (id : String) (c : Nat) :
    (updateTransactionCategory s id c).map StoredTx.id = s.map StoredTx.id := by
  unfold updateTransactionCategory
  rw [List.map_map]
  apply List.map_congr_left
  intro r _
  by_cases h : r.id = id <;> simp [h]

/-- Setting the category of the unique uncategorized row with a given id
decrements the uncategorized count by one. -/
theorem update_uncat_count : ∀ (s : Store) (id : String) (c : Nat),
    (s.map StoredTx.id).Nodup →
    (∃ r ∈ s, r.id = id) →
    (∀ r ∈ s, r.id = id → r.categoryId = none) →
    uncatCount (updateTransactionCategory s id c) + 1 = uncatCount s := by
  intro s
  induction s with
  | nil =>
    intro id c _ hex _
    obtain ⟨r, hr, _⟩ := hex
    cases hr
  | cons r t ih =>
    intro id c hnd hex hnone
    rw [List.map_cons, List.nodup_cons] at hnd
    unfold updateTransactionCategory at *
    rw [List.map_cons]
    by_cases h : r.id = id
    · have htail : ∀ q ∈ t, ¬q.id = id := by
        intro q hq hqid
        exact hnd.1 (by
          rw [List.mem_map]
          exact ⟨q, hq, by rw [hqid, h]⟩)
      have hmapt : t.map (fun q => if q.id = id then { q with categoryId := some c } else q) = t := by
        rw [show t.map (fun q => if q.id = id then { q with categoryId := some c } else q) =
            t.map (fun q => q) from
          List.map_congr_left fun q hq => by rw [if_neg (htail q hq)]]
        exact List.map_id' t
      rw [if_pos h, hmapt]
      unfold uncatCount
      rw [List.filter_cons_of_neg (by simp), List.filter_cons_of_pos (by simp [hnone r (by simp) h])]
      rfl
    · rw [if_neg h]
      have hex' : ∃ q ∈ t, q.id = id := by
        obtain ⟨q, hq, hqid⟩ := hex
        rcases List.mem_cons.mp hq with rfl | hq'
        · exact absurd hqid h
        · exact ⟨q, hq', hqid⟩
      have hrec := ih id c hnd.2 hex' fun q hq hqid => hnone q (List.mem_cons_of_mem _ hq) hqid
      unfold uncatCount at *
      by_cases hcat : r.categoryId = none
      · rw [List.filter_cons_of_pos (by simp [hcat]), List.filter_cons_of_pos (by simp [hcat])]
        simp only [List.length_cons]
        omega
      · rw [List.filter_cons_of_neg (by simp [hcat]), List.filter_cons_of_neg (by simp [hcat])]
        exact hrec

/-- One loop iteration either leaves the store untouched and counts nothing,
or persists one category on the row's id and counts one. -/
theorem applyStep_cases (db : RulesDb) (s : Store) (row : StoredTx) :
    applyStep db s row = (s, 0) ∨
    ∃ c, applyStep db s row = (updateTransactionCategory s row.id c, 1) := by
  unfold applyStep
  cases hr : resolveCategory db s row with
  | none =>
    left
    simp [jsTruthyNat]
  | some m =>
    by_cases hm : m = 0
    · left
      simp [jsTruthyNat, hm]
    · right
      exact ⟨m, by simp [jsTruthyNat, hm]⟩

/-- Every fetched row is an uncategorized row of the store. -/
theorem fetched_sub (s : Store) (lim : Nat) :
    ∀ q ∈ getTransactionsUncategorized s lim, q ∈ s ∧ q.categoryId = none := by
  intro q hq
  unfold getTransactionsUncategorized at hq
  have h1 := List.take_subset _ _ hq
  have h2 := (List.mem_insertionSort dateDesc).mp h1
  exact ⟨List.mem_of_mem_filter h2, by simpa using List.of_mem_filter h2⟩

/-- The fetched snapshot inherits distinct ids from the store. -/
theorem fetched_nodup (s : Store) (lim : Nat) (hnd : (s.map StoredTx.id).Nodup) :
    ((getTransactionsUncategorized s lim).map StoredTx.id).Nodup := by
  unfold getTransactionsUncategorized
  have h1 : ((s.filter fun r => r.categoryId = none).map StoredTx.id).Nodup :=
    hnd.sublist (List.Sublist.map StoredTx.id (List.filter_sublist s))
  have h2 : (((s.filter fun r => r.categoryId = none).insertionSort dateDesc).map
      StoredTx.id).Nodup :=
    (((List.perm_insertionSort dateDesc _).map StoredTx.id).nodup_iff).mpr h1
  exact h2.sublist (List.Sublist.map StoredTx.id (List.take_sublist _ _))

/-- The loop invariant: starting from a store with distinct ids whose
entries for the fetched ids are uncategorized, the loop only ever assigns
categories to those rows (frame relation), decrements the uncategorized
count once per counted persist, and never changes the id column. -/
theorem applyLoop_invariant (db : RulesDb) :
    ∀ (fetched : List StoredTx) (s : Store) (n : Nat),
    (fetched.map StoredTx.id).Nodup →
    (s.map StoredTx.id).Nodup →
    (∀ q ∈ fetched, ∃ r ∈ s, r.id = q.id) →
    (∀ q ∈ fetched, ∀ r ∈ s, r.id = q.id → r.categoryId = none) →
    List.Forall₂ frameR s (applyLoop db s n fetched).1 ∧
    uncatCount (applyLoop db s n fetched).1 + (applyLoop db s n fetched).2 = uncatCount s + n ∧
    (applyLoop db s n fetched).1.map StoredTx.id = s.map StoredTx.id := by
  intro fetched
  induction fetched with
  | nil => exact fun s n _ _ _ _ => ⟨forall₂_frameR_refl s, rfl, rfl⟩
  | cons row rest ih =>
    intro s n hfnd hsnd hex hnone
    rw [List.map_cons, List.nodup_cons] at hfnd
    have hstep : applyLoop db s n (row :: rest) =
        applyLoop db (applyStep db s row).1 (n + (applyStep db s row).2) rest := rfl
    rcases applyStep_cases db s row with hc | ⟨c, hc⟩
    · have hstep2 : applyLoop db s n (row :: rest) = applyLoop db s n rest := by
        rw [hstep, hc]
        rfl
      rw [hstep2]
      exact ih s n hfnd.2 hsnd
        (fun q hq => hex q (List.mem_cons_of_mem _ hq))
        (fun q hq => hnone q (List.mem_cons_of_mem _ hq))
    · have hstep2 : applyLoop db s n (row :: rest) =
          applyLoop db (updateTransactionCategory s row.id c) (n + 1) rest := by
        rw [hstep, hc]
      rw [hstep2]
      have hnone_row : ∀ r ∈ s, r.id = row.id → r.categoryId = none :=
        hnone row (by simp)
      have hex_row : ∃ r ∈ s, r.id = row.id := hex row (by simp)
      have hids : (updateTransactionCategory s row.id c).map StoredTx.id = s.map StoredTx.id :=
        update_map_id s row.id c
      have hcount : uncatCount (updateTransactionCategory s row.id c) + 1 = uncatCount s :=
        update_uncat_count s row.id c hsnd hex_row hnone_row
      have hf2 : List.Forall₂ frameR s (updateTransactionCategory s row.id c) :=
        forall₂_frameR_update s row.id c hnone_row
      have hex' : ∀ q ∈ rest, ∃ r ∈ updateTransactionCategory s row.id c, r.id = q.id := by
        intro q hq
        obtain ⟨r, hr, hrid⟩ := hex q (List.mem_cons_of_mem _ hq)
        refine ⟨if r.id = row.id then { r with categoryId := some c } else r,
          List.mem_map_of_mem _ hr, ?_⟩
        by_cases h : r.id = row.id
        · rw [if_pos h]
          exact hrid
        · rw [if_neg h]
          exact hrid
      have hnone' : ∀ q ∈ rest, ∀ r ∈ updateTransactionCategory s row.id c,
          r.id = q.id → r.categoryId = none := by
        intro q hq r hr hrid
        obtain ⟨r₀, hr₀, rfl⟩ := List.mem_map.mp hr
        by_cases h : r₀.id = row.id
        · exfalso
          apply hfnd.1
          rw [List.mem_map]
          refine ⟨q, hq, ?_⟩
          rw [← hrid]
          simp [h]
        · rw [if_neg h] at hrid ⊢
          exact hnone q (List.mem_cons_of_mem _ hq) r₀ hr₀ hrid
      obtain ⟨g1, g2, g3⟩ := ih (updateTransactionCategory s row.id c) (n + 1) hfnd.2
        (by rw [hids]; exact hsnd) hex' hnone'
      refine ⟨forall₂_frameR_trans hf2 g1, by omega, by rw [g3, hids]⟩

/-- Claim C7: `applyRulesToUncategorized` loads the uncategorized rows (all
of them whenever there are at most 10000, the page limit), reports their
number as `totalUncategorized`, resolves each through rule matching and then
the counterparty-history fallback (the definition of `applyStep`), persists
a category only on previously uncategorized rows — no other column and no
other row changes, and no category is ever cleared or overwritten — and
returns as `categorizedCount` exactly the number of rows that went from
uncategorized to categorized. -/
theorem claim7_apply_rules (db : RulesDb) (s : Store)
    (hnd : (s.map StoredTx.id).Nodup) (hcard : uncatCount s ≤ 10000) :
    (applyRulesToUncategorized db s).2.1 = uncatCount s ∧
    List.Forall₂ frameR s (applyRulesToUncategorized db s).1 ∧
    uncatCount (applyRulesToUncategorized db s).1 + (applyRulesToUncategorized db s).2.2 =
      uncatCount s := by
  have hflen : (getTransactionsUncategorized s 10000).length = uncatCount s := by
    unfold getTransactionsUncategorized
    rw [List.length_take, List.length_insertionSort]
    exact Nat.min_eq_right hcard
  have hinj : ∀ x ∈ s, ∀ y ∈ s, StoredTx.id x = StoredTx.id y → x = y :=
    fun x hx y hy h => List.inj_on_of_nodup_map hnd hx hy h
  obtain ⟨g1, g2, _⟩ := applyLoop_invariant db (getTransactionsUncategorized s 10000) s 0
    (fetched_nodup s 10000 hnd) hnd
    (fun q hq => ⟨q, (fetched_sub s 10000 q hq).1, rfl⟩)
    (fun q hq r hr hrid => by
      have hqs := fetched_sub s 10000 q hq
      rw [hinj r hr q hqs.1 hrid]
      exact hqs.2)
  exact ⟨hflen, g1, g2⟩

/-- Witness for C7: a four-row store (one categorized `STARBUCKS` row, one
uncategorized `STARBUCKS` row for the history fallback, one uncategorized
row matching the `SHOP` rule, one unresolvable row) with the fixture rule.
The run reports three uncategorized rows and the proved frame and count
facts. -/
theorem claim7_witness :
    (applyRulesToUncategorized ⟨[ruleA], catsAB⟩
      [mkStored "S1" (some "2024-01-01") "coffee" "STARBUCKS" (some 7) none,
       mkStored "S2" (some "2024-01-02") "latte" "STARBUCKS" none none,
       mkStored "S3" (some "2024-01-03") "Card purchase SHOP" "" none none,
       mkStored "S4" (some "2024-01-04") "nothing here" "" none none]).2.1 =
      uncatCount
        [mkStored "S1" (some "2024-01-01") "coffee" "STARBUCKS" (some 7) none,
         mkStored "S2" (some "2024-01-02") "latte" "STARBUCKS" none none,
         mkStored "S3" (some "2024-01-03") "Card purchase SHOP" "" none none,
         mkStored "S4" (some "2024-01-04") "nothing here" "" none none] ∧
    List.Forall₂ frameR
      [mkStored "S1" (some "2024-01-01") "coffee" "STARBUCKS" (some 7) none,
       mkStored "S2" (some "2024-01-02") "latte" "STARBUCKS" none none,
       mkStored "S3" (some "2024-01-03") "Card purchase SHOP" "" none none,
       mkStored "S4" (some "2024-01-04") "nothing here" "" none none]
      (applyRulesToUncategorized ⟨[ruleA], catsAB⟩
        [mkStored "S1" (some "2024-01-01") "coffee" "STARBUCKS" (some 7) none,
         mkStored "S2" (some "2024-01-02") "latte" "STARBUCKS" none none,
         mkStored "S3" (some "2024-01-03") "Card purchase SHOP" "" none none,
         mkStored "S4" (some "2024-01-04") "nothing here" "" none none]).1 ∧
    uncatCount (applyRulesToUncategorized ⟨[ruleA], catsAB⟩
        [mkStored "S1" (some "2024-01-01") "coffee" "STARBUCKS" (some 7) none,
         mkStored "S2" (some "2024-01-02") "latte" "STARBUCKS" none none,
         mkStored "S3" (some "2024-01-03") "Card purchase SHOP" "" none none,
         mkStored "S4" (some "2024-01-04") "nothing here" "" none none]).1 +
      (applyRulesToUncategorized ⟨[ruleA], catsAB⟩
        [mkStored "S1" (some "2024-01-01") "coffee" "STARBUCKS" (some 7) none,
         mkStored "S2" (some "2024-01-02") "latte" "STARBUCKS" none none,
         mkStored "S3" (some "2024-01-03") "Card purchase SHOP" "" none none,
         mkStored "S4" (some "2024-01-04") "nothing here" "" none none]).2.2 =
      uncatCount
        [mkStored "S1" (some "2024-01-01") "coffee" "STARBUCKS" (some 7) none,
         mkStored "S2" (some "2024-01-02") "latte" "STARBUCKS" none none,
         mkStored "S3" (some "2024-01-03") "Card purchase SHOP" "" none none,
         mkStored "S4" (some "2024-01-04") "nothing here" "" none none] :=
  claim7_apply_rules ⟨[ruleA], catsAB⟩ _ (by decide) (by decide)
